import Mathlib

/-!
# Verification of the ESG KPI extraction/normalization/fusion core

Shallow embedding, in Lean 4, of the core components of the
`esg-llm-platform` repository (package `src/esg`):

* `src/esg/utils/numeric_parser.py`   — locale-aware numeric parsing
* `src/esg/normalization/*.py`        — per-source normalizers and unit resolution
* `src/esg/pipeline/pipeline.py`      — score-based fusion and pipeline orchestration
* `src/esg/extractors/table_grid_extractor.py` — grid-table extraction
* `src/esg/extractors/llm_extractor.py`        — LLM backfill extractor

Python strings are modelled as `List Char` (`Chars`), Python `float` values as
exact rationals (`Q` below; all arithmetic performed by the code on the inputs
considered is exact in double precision, so the rational semantics agrees with
the float semantics),
Python `None` as `Option.none`, Python dicts as insertion-ordered association
lists (`List (String × α)`) with `dget`/`dinsert` mirroring `d.get(k)` /
`d[k] = v`, and Python exceptions as `Except PyErr`.
-/

namespace ESG

/-- Python exception classes that the embedded code can raise. -/
inductive PyErr where
  | valueError
  | attributeError
  deriving Repr, DecidableEq

abbrev Chars := List Char

/-! ## Exact numbers

Python float values are modelled as exact rationals.  (Mathlib's `ℚ` carries
proof fields that block kernel reduction of concrete arithmetic, so the model
uses a bare numerator/denominator pair kept in lowest terms with a positive
denominator by every operation; on such canonical values structural equality
is rational equality.)  All arithmetic the embedded code performs on the
inputs considered is exact in IEEE double precision as well, so the rational
semantics agrees with Python's float results. -/

structure Q where
  num : ℤ
  den : ℕ
  deriving Repr, DecidableEq

/-- Normalize `n / d` (for `d > 0`) to lowest terms. -/
def Q.mkRed (n : ℤ) (d : ℕ) : Q :=
  let g := Int.gcd n d
  if g = 0 then ⟨0, 1⟩ else ⟨n / g, d / g⟩

instance (n : ℕ) : OfNat Q n := ⟨⟨n, 1⟩⟩
instance : NatCast Q := ⟨fun n => ⟨n, 1⟩⟩
instance : IntCast Q := ⟨fun n => ⟨n, 1⟩⟩

def Q.add (a b : Q) : Q := Q.mkRed (a.num * b.den + b.num * a.den) (a.den * b.den)
def Q.mul (a b : Q) : Q := Q.mkRed (a.num * b.num) (a.den * b.den)
def Q.neg (a : Q) : Q := ⟨-a.num, a.den⟩

/-- Reciprocal (of a canonical value); the embedded code never divides by
zero, and `0⁻¹ = 0` is a junk value as in Mathlib. -/
def Q.inv (a : Q) : Q :=
  if a.num = 0 then ⟨0, 1⟩
  else if 0 < a.num then ⟨(a.den : ℤ), a.num.toNat⟩
  else ⟨-(a.den : ℤ), (-a.num).toNat⟩

def Q.div (a b : Q) : Q := Q.mul a (Q.inv b)

def Q.pow (a : Q) (n : ℕ) : Q := ⟨a.num ^ n, a.den ^ n⟩

instance : Add Q := ⟨Q.add⟩
instance : Mul Q := ⟨Q.mul⟩
instance : Neg Q := ⟨Q.neg⟩
instance : Div Q := ⟨Q.div⟩
instance : Pow Q ℕ := ⟨Q.pow⟩

/-- Decimal literals such as `0.9` denote `9 / 10`. -/
instance : OfScientific Q :=
  ⟨fun m b e => if b then Q.mkRed (m : ℤ) (10 ^ e) else ⟨(m : ℤ) * 10 ^ e, 1⟩⟩

/-- Order by cross-multiplication (denominators are positive). -/
def Q.blt (a b : Q) : Bool := a.num * b.den < b.num * a.den

instance : LT Q := ⟨fun a b => Q.blt a b = true⟩

instance (a b : Q) : Decidable (a < b) :=
  inferInstanceAs (Decidable (Q.blt a b = true))


/-! ## Python dict operations

`dget k d` models `d.get(k)` (first binding wins; real dicts have unique
keys).  `dinsert k v d` models `d[k] = v`: it updates the binding in place
when the key is present (keeping its position, as Python dicts keep insertion
order on update) and appends it otherwise. -/

def dget {α : Type} (k : String) : List (String × α) → Option α
  | [] => none
  | (k', v) :: rest => if k' = k then some v else dget k rest

def dinsert {α : Type} (k : String) (v : α) : List (String × α) → List (String × α)
  | [] => [(k, v)]
  | (k', v') :: rest =>
      if k' = k then (k, v) :: rest else (k', v') :: dinsert k v rest

/-! ## String helpers (Python semantics) -/

/-- Characters stripped by Python `str.strip()` with no argument
(ASCII whitespace plus the Unicode spaces that occur in this code base). -/
def pyIsSpace (c : Char) : Bool :=
  c = ' ' || c = '\t' || c = '\n' || c = '\r' || c = '\x0b' || c = '\x0c' ||
  c = ' ' || c = ' ' || c = ' '

/-- Python `s.strip()`. -/
def pyStrip (cs : Chars) : Chars :=
  ((cs.dropWhile pyIsSpace).reverse.dropWhile pyIsSpace).reverse

/-- Python `s.rstrip(".")`. -/
def pyRstripDot (cs : Chars) : Chars :=
  (cs.reverse.dropWhile (· = '.')).reverse

/-- The `SPACE_CHARS` list of `numeric_parser.py`: normal space, NBSP,
figure space, narrow NBSP. -/
def isSpaceVariant (c : Char) : Bool :=
  c = ' ' || c = ' ' || c = ' ' || c = ' '

/-- `_normalize_spaces` of `numeric_parser.py`: replace every space variant
by a normal ASCII space. -/
def normalizeSpaces (cs : Chars) : Chars :=
  cs.map (fun c => if isSpaceVariant c then ' ' else c)

/-- Python `needle in hay` substring test. -/
def strContains (hay needle : Chars) : Bool :=
  hay.tails.any (fun t => needle.isPrefixOf t)

/-- Python `s.endswith(t)`. -/
def strEndsWith (hay needle : Chars) : Bool :=
  needle.isSuffixOf hay

/-! ## Python `float()` on the numeric literals this code builds

`numeric_parser.py` only ever calls `float` on strings assembled from the
input token (digits, separators, signs, …).  `pyFloat` models the fragment of
the Python float grammar those strings can use: optional surrounding
whitespace, an optional sign, a decimal mantissa (`D+`, `D+.D*` or `.D+`) and
an optional exponent.  Any other string makes Python `float` raise
`ValueError`, modelled as `none`. -/

def digitsToNat (cs : Chars) : ℕ :=
  cs.foldl (fun n c => 10 * n + (c.toNat - '0'.toNat)) 0

def parseExponentPart (m : Q) (cs : Chars) : Option Q :=
  match cs with
  | [] => some m
  | c :: rest =>
      if c = 'e' ∨ c = 'E' then
        let (sign, rest') : ℤ × Chars :=
          match rest with
          | '+' :: r => (1, r)
          | '-' :: r => (-1, r)
          | r => (1, r)
        let (ds, tail) := rest'.span Char.isDigit
        if ds = [] ∨ tail ≠ [] then none
        else if sign < 0 then some (m / (10 : Q) ^ digitsToNat ds)
        else some (m * (10 : Q) ^ digitsToNat ds)
      else none

def parseMantissa (cs : Chars) : Option Q :=
  let (ip, r1) := cs.span Char.isDigit
  match r1 with
  | '.' :: r2 =>
      let (fp, r3) := r2.span Char.isDigit
      if ip = [] ∧ fp = [] then none
      else parseExponentPart ((digitsToNat ip : Q) +
             (digitsToNat fp : Q) / (10 : Q) ^ fp.length) r3
  | _ =>
      if ip = [] then none else parseExponentPart (digitsToNat ip : Q) r1

def pyFloat (cs : Chars) : Option Q :=
  match pyStrip cs with
  | '+' :: rest => parseMantissa rest
  | '-' :: rest => (parseMantissa rest).map (fun q => -q)
  | rest => parseMantissa rest

/-! ## Regex tests used by `parse_locale_number` -/

/-- Matches `([sep]\d{3})+` against the whole remaining string. -/
def sepGroupsTail (sep : Char → Bool) : Chars → Bool
  | s :: d1 :: d2 :: d3 :: rest =>
      sep s && d1.isDigit && d2.isDigit && d3.isDigit && sepGroupsTail sep rest
  | [] => true
  | _ => false

/-- `re.match(r"^\d{1,3}([sep]\d{3})+$", s)`.  Because the group must start
with a (non-digit) separator, the leading `\d{1,3}` necessarily consumes the
whole maximal leading digit run, so matching against the maximal run is
equivalent to the backtracking regex semantics. -/
def matchesGrouped (sep : Char → Bool) (cs : Chars) : Bool :=
  let (lead, rest) := cs.span Char.isDigit
  decide (1 ≤ lead.length) && decide (lead.length ≤ 3) &&
    !rest.isEmpty && sepGroupsTail sep rest

/-- `re.match(r"^\d+$", s)`. -/
def matchesAllDigits (cs : Chars) : Bool :=
  !cs.isEmpty && cs.all Char.isDigit

/-- `re.match(r"^\d+[.,]\d+$", s)`. -/
def matchesDecimal (cs : Chars) : Bool :=
  let (lead, rest) := cs.span Char.isDigit
  match rest with
  | s :: tail =>
      !lead.isEmpty && (s = '.' || s = ',') && !tail.isEmpty && tail.all Char.isDigit
  | [] => false

/-! ## `parse_locale_number` (numeric_parser.py, lines 23–84)

The `try: return float(..) except Exception: return None` blocks are embedded
explicitly: the whole parser runs in `Except PyErr` and each branch catches
whatever `pyFloat` raises, so that claim C9 ("never throws") is a theorem
about the embedding rather than a typing accident. -/

/-- `try: return float(cs) except Exception: return None`. -/
def tryFloat (cs : Chars) : Except PyErr (Option Q) :=
  match pyFloat cs with
  | some v => .ok (some v)
  | none => .ok none

def parse_locale_number_exc (num : Option String) : Except PyErr (Option Q) :=
  match num with
  | none => .ok none          -- `if not num: return None` (None case)
  | some n =>
    if n = "" then .ok none   -- `if not num: return None` (empty-string case)
    else
      let s0 := normalizeSpaces (pyStrip n.toList)
      if s0 = [] then .ok none
      else
        let s := pyRstripDot s0
        let sNoSpace := s.filter (· ≠ ' ')
        if matchesGrouped (fun c => c = '.' || c = ',') sNoSpace then
          tryFloat (sNoSpace.filter (fun c => ¬(c = '.' ∨ c = ',')))
        else if matchesGrouped (· = ' ') s then
          tryFloat (s.filter (· ≠ ' '))
        else if matchesAllDigits sNoSpace then
          tryFloat sNoSpace
        else if matchesDecimal sNoSpace then
          tryFloat (sNoSpace.map (fun c => if c = ',' then '.' else c))
        else
          tryFloat (s.filter (fun c => ¬(c = ' ' ∨ c = ',' ∨ c = '.')))

def parse_locale_number (num : Option String) : Option Q :=
  match parse_locale_number_exc num with
  | .ok v => v
  | .error _ => none

/-! ## `parse_scaled_number` (numeric_parser.py, lines 87–119) -/

/-- `re.sub(r"(million|billion|thousand|k)", "", s)`: left-to-right scan,
at each position trying the alternatives in order (at any one position at
most one of the word alternatives can match). -/
def removeScaleWords : Chars → Chars
  | 'm' :: 'i' :: 'l' :: 'l' :: 'i' :: 'o' :: 'n' :: rest => removeScaleWords rest
  | 'b' :: 'i' :: 'l' :: 'l' :: 'i' :: 'o' :: 'n' :: rest => removeScaleWords rest
  | 't' :: 'h' :: 'o' :: 'u' :: 's' :: 'a' :: 'n' :: 'd' :: rest => removeScaleWords rest
  | 'k' :: rest => removeScaleWords rest
  | c :: rest => c :: removeScaleWords rest
  | [] => []

def parse_scaled_number_exc (raw : Option String) : Except PyErr (Option Q) :=
  match raw with
  | none => .ok none
  | some r =>
    if r = "" then .ok none
    else
      let s := normalizeSpaces ((pyStrip r.toList).map Char.toLower)
      if s = [] then .ok none
      else
        let scale : Q :=
          if strContains s "million".toList then 1000000
          else if strContains s "billion".toList then 1000000000
          else if strContains s "thousand".toList then 1000
          else if strEndsWith s ['k'] then 1000
          else 1
        let sClean := removeScaleWords s
        match parse_locale_number_exc (some (String.mk sClean)) with
        | .error e => .error e
        | .ok none => .ok none
        | .ok (some v) => .ok (some (v * scale))

def parse_scaled_number (raw : Option String) : Option Q :=
  match parse_scaled_number_exc raw with
  | .ok v => v
  | .error _ => none

/-! ## Data model

`RawEntry` is the per-KPI dict an extractor emits (`raw_value`, `raw_unit`,
optionally `value`/`unit` for the table-grid extractor, `confidence`).
`NormEntry` is the per-KPI dict a normalizer emits.  An `Option` field value
of `none` models an absent dict key (`entry.get(k)` then yields `None`).
The `score` field models `entry["_score"]["score"]` (present only when the
`_score` sub-dict with a `score` key is present); `status` models a `status`
key.  No extractor or normalizer in `src/esg` ever writes either key. -/

inductive StrOrNum where
  | str (s : String)
  | num (q : Q)
  deriving Repr, DecidableEq

structure RawEntry where
  raw_value : Option String := none
  raw_unit : Option String := none
  value : Option StrOrNum := none
  unit : Option String := none
  confidence : Option Q := none
  deriving Repr, DecidableEq

structure KPIMeta where
  units : List String := []
  synonyms : List String := []
  deriving Repr, DecidableEq, Inhabited

abbrev Schema := List (String × KPIMeta)
abbrev RawResults := List (String × RawEntry)

structure NormEntry where
  raw_value : Option String := none
  raw_unit : Option String := none
  value : Option Q := none
  unit : Option String := none
  confidence : Option Q := none
  score : Option Q := none
  status : Option String := none
  deriving Repr, DecidableEq

abbrev NormResults := List (String × NormEntry)

/-- `kpi_schema.get(code, {}).get("units", [])`. -/
def schemaUnits (code : String) (kpi_schema : Schema) : List String :=
  ((dget code kpi_schema).getD {}).units

/-- Python truthiness of an `Optional[str]`: `None` and `""` are falsy. -/
def optFalsy (o : Option String) : Bool :=
  o = none || o = some ""

/-! ## `normalize_regex_result` (regex_normalizer.py) -/

namespace RegexNorm

/-- The `UNIT_CONVERSIONS` table of `regex_normalizer.py`. -/
def UNIT_CONVERSIONS : List (String × String × Q) :=
  [ ("tco2e", ("tCO2e", 1)),
    ("tco2", ("tCO2e", 1)),
    ("t_co2e", ("tCO2e", 1)),
    ("tonsco2e", ("tCO2e", 1)),
    ("tonnesco2e", ("tCO2e", 1)),
    ("mwh", ("MWh", 1)),
    ("kwh", ("MWh", 1 / 1000)),
    ("gwh", ("MWh", 1000)),
    ("m3", ("m3", 1)),
    ("m³", ("m3", 1)),
    ("cubicmeters", ("m3", 1)),
    ("thousandm3", ("m3", 1000)),
    ("millionm3", ("m3", 1000000)) ]

/-- `_norm_unit_token` of `regex_normalizer.py`:
`"".join(u.split()).lower().replace("³", "3")` — drop all whitespace,
lowercase, fold `³` to `3`. -/
def norm_unit_token (u : Chars) : Chars :=
  ((u.filter (fun c => ¬ pyIsSpace c)).map Char.toLower).map
    (fun c => if c = '³' then '3' else c)

/-- `_normalize_unit` of `regex_normalizer.py` (lines 51–91): map
`raw_unit → (unit, multiplier)` against the single canonical unit. -/
def normalize_unit (raw_unit canonical_unit : Option String) :
    Option String × Q :=
  if optFalsy canonical_unit then
    (raw_unit, 1)
  else
    let can_norm := norm_unit_token (canonical_unit.getD "").toList
    if optFalsy raw_unit then
      (canonical_unit, 1)
    else
      let u_norm := norm_unit_token (raw_unit.getD "").toList
      if u_norm = can_norm then
        (canonical_unit, 1)
      else
        match dget (String.mk u_norm) UNIT_CONVERSIONS with
        | some (target, mult) =>
            if norm_unit_token target.toList = can_norm then (canonical_unit, mult)
            else (canonical_unit, 1)   -- fall through to the final fallback
        | none => (canonical_unit, 1)  -- fallback: canonical unit, no scaling

end RegexNorm

/-- The loop body of `normalize_regex_result` for one KPI (lines 119–151).
`{**entry, "value": …, "unit": …}` carries `raw_value`, `raw_unit` and (when
present) `confidence` through from the raw entry. -/
def normalizeRegexEntry (kpi_schema : Schema) (kpi_code : String)
    (entry : RawEntry) : NormEntry :=
  let units := schemaUnits kpi_code kpi_schema
  let canonical_unit := units.head?
  match parse_scaled_number entry.raw_value with
  | none =>
      { raw_value := entry.raw_value, raw_unit := entry.raw_unit,
        confidence := entry.confidence, value := none, unit := canonical_unit }
  | some value =>
      let (unit, factor) := RegexNorm.normalize_unit entry.raw_unit canonical_unit
      { raw_value := entry.raw_value, raw_unit := entry.raw_unit,
        confidence := entry.confidence, value := some (value * factor),
        unit := unit }

/-- `normalize_regex_result` (regex_normalizer.py, lines 98–153).  The loop
writes one output key per input key, so the output dict is the item-wise map
of the input dict. -/
def normalize_regex_result (raw_results : RawResults) (kpi_schema : Schema) :
    NormResults :=
  raw_results.map fun p => (p.1, normalizeRegexEntry kpi_schema p.1 p.2)

/-! ## `normalize_table_grid_result` (table_grid_normalizer.py) -/

namespace TableGridNorm

/-- `_normalize_unit_token` of `table_grid_normalizer.py`:
`u.lower().replace(" ", "").replace("³", "3")` (only ASCII spaces removed). -/
def norm_unit_token (u : Chars) : Chars :=
  ((u.map Char.toLower).filter (· ≠ ' ')).map (fun c => if c = '³' then '3' else c)

end TableGridNorm

/-- The loop body of `normalize_table_grid_result` for one KPI (lines
41–94). -/
def normalizeTableGridEntry (kpi_schema : Schema) (code : String)
    (entry : RawEntry) : NormEntry :=
  let confidence := entry.confidence.getD 0.9
    let allowed_units := schemaUnits code kpi_schema
    -- 1) number parsing: keep an already-numeric `value`, else parse `raw_value`
    let value : Option Q :=
      match entry.value with
      | some (.num q) => some q
      | _ => parse_locale_number entry.raw_value
    -- 2a) extractor already resolved a canonical unit
    let unit0 : Option String :=
      match entry.unit with
      | some ru => if ru ∈ allowed_units then some ru else none
      | none => none
    -- 2b) try raw_unit against allowed units
    let unit1 : Option String :=
      match unit0 with
      | some u => some u
      | none =>
          match entry.raw_unit with
          | some ru =>
              if ru ≠ "" then
                allowed_units.find? (fun u =>
                  TableGridNorm.norm_unit_token ru.toList =
                    TableGridNorm.norm_unit_token u.toList)
              else none
          | none => none
    -- 2c) sole allowed unit
    let unit2 : Option String :=
      if unit1 = none ∧ allowed_units.length = 1 then allowed_units.head? else unit1
    -- 2d) first allowed unit when a numeric value exists
    let unit3 : Option String :=
      if unit2 = none ∧ value.isSome ∧ ¬ allowed_units.isEmpty then
        allowed_units.head?
      else unit2
  { raw_value := entry.raw_value, raw_unit := entry.raw_unit,
    value := value, unit := unit3, confidence := some confidence }

/-- `normalize_table_grid_result` (table_grid_normalizer.py, lines 17–96).
The `if not entry: continue` guard only skips falsy (empty-dict) entries,
which the record type cannot represent and the extractor never produces. -/
def normalize_table_grid_result (raw_results : RawResults) (kpi_schema : Schema) :
    NormResults :=
  raw_results.map fun p => (p.1, normalizeTableGridEntry kpi_schema p.1 p.2)

/-! ## `normalize_nlp_result` (nlp_normalizer.py) -/

namespace NlpNorm

/-- `_norm_unit_token` of `nlp_normalizer.py` (same text as the table-grid
one): `u.lower().replace(" ", "").replace("³", "3")`. -/
def norm_unit_token (u : Chars) : Chars :=
  ((u.map Char.toLower).filter (· ≠ ' ')).map (fun c => if c = '³' then '3' else c)

end NlpNorm

/-- The loop body of `normalize_nlp_result` for one KPI (lines 35–68). -/
def normalizeNlpEntry (kpi_schema : Schema) (code : String)
    (entry : RawEntry) : NormEntry :=
  let confidence := entry.confidence.getD 0.65
    let allowed_units := schemaUnits code kpi_schema
    let value := parse_scaled_number entry.raw_value
    let unit0 : Option String :=
      if ¬ optFalsy entry.raw_unit then
        allowed_units.find? (fun u =>
          NlpNorm.norm_unit_token (entry.raw_unit.getD "").toList =
            NlpNorm.norm_unit_token u.toList)
      else none
    let unit1 : Option String :=
      if unit0 = none ∧ allowed_units.length = 1 then allowed_units.head? else unit0
  { raw_value := entry.raw_value, raw_unit := entry.raw_unit,
    value := value, unit := unit1, confidence := some confidence }

/-- `normalize_nlp_result` (nlp_normalizer.py, lines 14–70). -/
def normalize_nlp_result (raw_results : RawResults) (kpi_schema : Schema) :
    NormResults :=
  raw_results.map fun p => (p.1, normalizeNlpEntry kpi_schema p.1 p.2)

/-! ## `normalize_table_plain_result` (table_plain_normalizer.py) -/

namespace TablePlainNorm

/-- `_norm_unit` of `table_plain_normalizer.py`:
`"".join(u.split()).lower().replace("³", "3")`. -/
def norm_unit (u : Chars) : Chars :=
  ((u.filter (fun c => ¬ pyIsSpace c)).map Char.toLower).map
    (fun c => if c = '³' then '3' else c)

end TablePlainNorm

/-- The loop body of `normalize_table_plain_result` for one KPI (lines
36–68). -/
def normalizeTablePlainEntry (kpi_schema : Schema) (code : String)
    (entry : RawEntry) : NormEntry :=
  let confidence := entry.confidence.getD 0.5
    let value := parse_locale_number entry.raw_value
    let allowed_units := schemaUnits code kpi_schema
    let unit0 : Option String :=
      if ¬ optFalsy entry.raw_unit ∧ ¬ allowed_units.isEmpty then
        allowed_units.find? (fun u =>
          TablePlainNorm.norm_unit (entry.raw_unit.getD "").toList =
            TablePlainNorm.norm_unit u.toList)
      else none
    let unit1 : Option String :=
      if unit0 = none ∧ allowed_units.length = 1 then allowed_units.head? else unit0
  { raw_value := entry.raw_value, raw_unit := entry.raw_unit,
    value := value, unit := unit1, confidence := some confidence }

/-- `normalize_table_plain_result` (table_plain_normalizer.py, lines 14–70). -/
def normalize_table_plain_result (raw_results : RawResults) (kpi_schema : Schema) :
    NormResults :=
  raw_results.map fun p => (p.1, normalizeTablePlainEntry kpi_schema p.1 p.2)

/-! ## `normalize_llm_result` (llm_normalizer.py) -/

namespace LlmNorm

/-- `_norm_unit_token` of `llm_normalizer.py`:
`u.lower().replace(" ", "").replace("Â³", "3")`.  Note the mojibake: the
replaced pattern is the two-character sequence `Â³` (U+00C2 U+00B3), not the
single character `³`. -/
def foldA3 : Chars → Chars
  | [] => []
  | [c] => [c]
  | c1 :: c2 :: rest =>
      if c1 = 'Â' ∧ c2 = '³' then '3' :: foldA3 rest
      else c1 :: foldA3 (c2 :: rest)

def norm_unit_token (u : Chars) : Chars :=
  foldA3 ((u.map Char.toLower).filter (· ≠ ' '))

end LlmNorm

/-- The loop body of `normalize_llm_result` for one KPI (lines 35–67). -/
def normalizeLlmEntry (kpi_schema : Schema) (code : String)
    (entry : RawEntry) : NormEntry :=
  let confidence := entry.confidence.getD 0.75
    let allowed_units := schemaUnits code kpi_schema
    let value := parse_scaled_number entry.raw_value
    let unit0 : Option String :=
      if ¬ optFalsy entry.raw_unit then
        allowed_units.find? (fun u =>
          LlmNorm.norm_unit_token (entry.raw_unit.getD "").toList =
            LlmNorm.norm_unit_token u.toList)
      else none
    let unit1 : Option String :=
      if unit0 = none ∧ allowed_units.length = 1 then allowed_units.head? else unit0
  { raw_value := entry.raw_value, raw_unit := entry.raw_unit,
    value := value, unit := unit1, confidence := some confidence }

/-- `normalize_llm_result` (llm_normalizer.py, lines 13–69). -/
def normalize_llm_result (raw_results : RawResults) (kpi_schema : Schema) :
    NormResults :=
  raw_results.map fun p => (p.1, normalizeLlmEntry kpi_schema p.1 p.2)

/-! ## Fusion (`fuse_all_sources`, pipeline.py lines 41–104) -/

/-- A fused per-KPI dict.  The resolved branch spreads the winning normalized
entry (`{**best["entry"], "source": [best["source"]]}`), so it carries all of
the `NormEntry` keys plus `source`; the unresolved branch writes the literal
dict of pipeline.py lines 82–88. -/
structure FusedEntry where
  raw_value : Option String := none
  raw_unit : Option String := none
  value : Option Q := none
  unit : Option String := none
  confidence : Option Q := none
  score : Option Q := none
  status : Option String := none
  source : List String := []
  deriving Repr, DecidableEq

abbrev FusedMap := List (String × FusedEntry)

/-- `{**entry, "source": src}`. -/
def spreadNorm (e : NormEntry) (src : List String) : FusedEntry :=
  { raw_value := e.raw_value, raw_unit := e.raw_unit, value := e.value,
    unit := e.unit, confidence := e.confidence, score := e.score,
    status := e.status, source := src }

/-- The unresolved dict of pipeline.py lines 82–88. -/
def unresolvedFused : FusedEntry :=
  { value := none, unit := none, confidence := some 0, source := [],
    status := some "Not Reported" }

/-- `PRIORITY_ORDER` of `fuse_all_sources`. -/
def PRIORITY_ORDER : List (String × ℕ) :=
  [("table_grid", 4), ("table_plain", 3), ("regex", 2), ("nlp", 1)]

structure Cand where
  source : String
  entry : NormEntry
  score : Q
  priority : ℕ
  deriving Repr, DecidableEq

/-- The candidate-collection loop of `fuse_all_sources` (pipeline.py lines
64–78): for each source, in the fixed order table_grid, table_plain, regex,
nlp, a candidate is appended when `src_dict.get(code)` is a (truthy) entry.
`entry.get("_score", {}).get("score", 0.0)` is `entry.score` defaulting to
`0`; `PRIORITY_ORDER[src_name]` is a lookup that always succeeds for these
four names. -/
def collectCands (regex_norm table_grid_norm table_plain_norm nlp_norm : NormResults)
    (code : String) : List Cand :=
  ([("table_grid", table_grid_norm), ("table_plain", table_plain_norm),
    ("regex", regex_norm), ("nlp", nlp_norm)]).filterMap
    (fun (p : String × NormResults) =>
      (dget code p.2).map (fun entry =>
        { source := p.1, entry := entry, score := entry.score.getD 0,
          priority := (dget p.1 PRIORITY_ORDER).getD 0 }))

/-- Strict comparison on the Python sort key `(score, priority)`. -/
def candKeyGT (a b : Cand) : Bool :=
  decide (b.score < a.score) ||
    (decide (a.score = b.score) && decide (b.priority < a.priority))

/-- `sorted(candidates, key=lambda c: (c["score"], c["priority"]),
reverse=True)[0]`: the stable descending sort puts first the earliest
candidate attaining the maximal `(score, priority)` key, which is what this
fold computes (it replaces the current best only on a strictly greater
key). -/
def bestCand : List Cand → Option Cand
  | [] => none
  | c :: rest => some (rest.foldl (fun b c' => if candKeyGT c' b then c' else b) c)

/-- The per-code body of the `fuse_all_sources` loop. -/
def fuseOne (regex_norm table_grid_norm table_plain_norm nlp_norm : NormResults)
    (code : String) : FusedEntry :=
  match bestCand (collectCands regex_norm table_grid_norm table_plain_norm nlp_norm code) with
  | none => unresolvedFused
  | some best => spreadNorm best.entry [best.source]

/-- `fuse_all_sources` (pipeline.py lines 41–104).  The `llm_norm` parameter
is present in the source signature but unused by the body. -/
def fuse_all_sources (regex_norm table_grid_norm table_plain_norm nlp_norm
    llm_norm : NormResults) (kpi_codes : List String) : FusedMap :=
  kpi_codes.foldl (fun fused code =>
    dinsert code (fuseOne regex_norm table_grid_norm table_plain_norm nlp_norm code) fused) []

/-! ## Pipeline orchestration (`ESGPipelineV2.run_on_pdf`, pipeline.py)

`esg/core/types.py` is not under `src/`, only its callers are.
Modelled from the spec: `KPIResult` is the final immutable record
`{code, value, unit, confidence, source[], status}` (spec §3); the pipeline
constructs it passing every field explicitly (pipeline.py lines 208–215). -/

structure KPIResult where
  code : String
  value : Option Q
  unit : Option String
  confidence : Q
  source : List String
  status : String
  deriving Repr, DecidableEq

/-- The result-assembly body (pipeline.py lines 205–216):
`value`, `unit` from the entry; `float(entry.get("confidence", 0.0))`;
`entry.get("source") or []` (fused entries always carry a list, and
`or []` maps the empty list to itself); `entry.get("status", "Not Reported")`. -/
def toKPIResult (p : String × FusedEntry) : KPIResult :=
  { code := p.1, value := p.2.value, unit := p.2.unit,
    confidence := p.2.confidence.getD 0, source := p.2.source,
    status := p.2.status.getD "Not Reported" }

/-- `missing_codes` (pipeline.py lines 161–164):
codes whose `fused.get(code, {}).get("value")` is `None`. -/
def missingCodes (kpi_codes : List String) (fused : FusedMap) : List String :=
  kpi_codes.filter (fun code => ((dget code fused).bind (fun e => e.value)) = none)

/-- `subset_schema` (pipeline.py lines 174–178). -/
def subsetSchema (kpi_schema : Schema) (missing : List String) : Schema :=
  missing.filterMap (fun code => (dget code kpi_schema).map (fun m => (code, m)))

/-- The backfill merge loop (pipeline.py lines 188–200): for each missing
code, skip when `llm_norm.get(code)` is absent (normalized entries are never
falsy dicts), skip when the fused value is meanwhile non-null, else write
`{**entry, "source": ["llm"]}`. -/
def applyBackfill (llm_norm : NormResults) (missing : List String)
    (fused : FusedMap) : FusedMap :=
  missing.foldl (fun fused code =>
    match dget code llm_norm with
    | none => fused
    | some entry =>
        if ((dget code fused).bind (fun e => e.value)).isSome then fused
        else dinsert code (spreadNorm entry ["llm"]) fused) fused

/-! `ESGPipelineV2.run_on_pdf` (pipeline.py lines 120–218) from the point
where the document has been read: the deterministic extractor outputs are
taken as inputs (each extractor is a pure function of the opaque document),
and the LLM call `extract_kpis_llm(text, subset_schema)` is the oracle
`llm_extract` — an `Except` since the surrounding `try` also catches the
exceptions it can raise (`normalize_llm_result` itself cannot raise).  The
method body's successive locals are named stage functions. -/

/-- Lines 136–155: normalize the four deterministic extractor outputs and
fuse them (with the empty `llm_norm={}` argument). -/
def pipelineDetFused (kpi_schema : Schema)
    (table_grid_raw table_plain_raw regex_raw nlp_raw : RawResults) : FusedMap :=
  fuse_all_sources (normalize_regex_result regex_raw kpi_schema)
    (normalize_table_grid_result table_grid_raw kpi_schema)
    (normalize_table_plain_result table_plain_raw kpi_schema)
    (normalize_nlp_result nlp_raw kpi_schema) [] (kpi_schema.map Prod.fst)

/-- Lines 161–164: the `missing_codes` for which backfill is invoked. -/
def pipelineMissing (kpi_schema : Schema)
    (table_grid_raw table_plain_raw regex_raw nlp_raw : RawResults) : List String :=
  missingCodes (kpi_schema.map Prod.fst)
    (pipelineDetFused kpi_schema table_grid_raw table_plain_raw regex_raw nlp_raw)

/-- Lines 174–185: call the oracle on the restricted schema and normalize;
on any exception, `llm_norm = {}`. -/
def pipelineLlmNorm (kpi_schema : Schema)
    (table_grid_raw table_plain_raw regex_raw nlp_raw : RawResults)
    (llm_extract : Schema → Except PyErr RawResults) : NormResults :=
  let subset := subsetSchema kpi_schema
    (pipelineMissing kpi_schema table_grid_raw table_plain_raw regex_raw nlp_raw)
  match llm_extract subset with
  | .ok llm_raw => normalize_llm_result llm_raw subset
  | .error _ => []

/-- Lines 166–200: the fused map after the conditional backfill merge. -/
def pipelineFinalFused (kpi_schema : Schema)
    (table_grid_raw table_plain_raw regex_raw nlp_raw : RawResults)
    (llm_extract : Schema → Except PyErr RawResults) : FusedMap :=
  let fused := pipelineDetFused kpi_schema table_grid_raw table_plain_raw regex_raw nlp_raw
  let missing := pipelineMissing kpi_schema table_grid_raw table_plain_raw regex_raw nlp_raw
  if missing.isEmpty then fused
  else
    applyBackfill
      (pipelineLlmNorm kpi_schema table_grid_raw table_plain_raw regex_raw nlp_raw llm_extract)
      missing fused

/-- Lines 205–218: assemble the final `KPIResult` list. -/
def run_on_pdf_core (kpi_schema : Schema)
    (table_grid_raw table_plain_raw regex_raw nlp_raw : RawResults)
    (llm_extract : Schema → Except PyErr RawResults) : List KPIResult :=
  (pipelineFinalFused kpi_schema table_grid_raw table_plain_raw regex_raw nlp_raw
    llm_extract).map toKPIResult

/-! ## Table-grid extractor (`table_grid_extractor.py`)

Grids come from `pdfplumber` as row-major lists of nullable string cells; the
page/table iteration of `extract_kpis_tables_grid` visits the tables of the
document in order, so the embedding takes the flattened table list as input
(the surrounding `try` returns `{}` on a reader failure, an input-acquisition
concern outside this model). -/

namespace TableGrid

abbrev Row := List (Option String)
abbrev Table := List Row

/-- Single-space collapse used by `_norm_text` (`re.sub(r"\s+", " ", s)`,
applied after every non-alphanumeric character has become a space). -/
def collapseSpaces (cs : Chars) : Chars :=
  (cs.foldl
    (fun (acc : Chars × Bool) c =>
      if c = ' ' then (if acc.2 then acc.1 else acc.1.concat ' ', true)
      else (acc.1.concat c, false))
    ([], false)).1

def trimSpaces (cs : Chars) : Chars :=
  ((cs.dropWhile (· = ' ')).reverse.dropWhile (· = ' ')).reverse

/-- `_norm_text` of `table_grid_extractor.py`: lowercase, strip accents,
collapse non-alphanumeric to spaces, collapse repeated spaces, strip.  The
NFD-decompose-and-drop-combining-marks step is the identity on the ASCII
fragment; any other character is outside `[a-z0-9]` and becomes a space in
both the source and the model. -/
def norm_text_core (cs : Chars) : Chars :=
  if cs = [] then []
  else
    let t := (pyStrip cs).map Char.toLower
    let u := t.map (fun c =>
      if ('a' ≤ c ∧ c ≤ 'z') ∨ ('0' ≤ c ∧ c ≤ '9') then c else ' ')
    trimSpaces (collapseSpaces u)

/-- `_norm_text` on a nullable cell (`if not s: return ""`). -/
def norm_text (s : Option String) : Chars :=
  match s with
  | none => []
  | some str => norm_text_core str.toList

/-- `_norm_unit` of `table_grid_extractor.py`:
`u.lower().replace(" ", "").replace("³", "3")`. -/
def norm_unit (u : Chars) : Chars :=
  ((u.map Char.toLower).filter (· ≠ ' ')).map (fun c => if c = '³' then '3' else c)

/-- `_HARDCODED` multilingual synonyms. -/
def HARDCODED : List (String × List String) :=
  [ ("total_ghg_emissions",
     ["total ghg emissions", "ghg emissions total",
      "treibhausgasemissionen gesamt", "emissions totales de ges"]),
    ("energy_consumption",
     ["total energy consumption", "energy consumption total",
      "gesamtenergieverbrauch", "consommation totale d energie"]),
    ("water_withdrawal",
     ["total water withdrawal", "water withdrawal total",
      "gesamtwasserentnahme", "prelevement total d eau"]) ]

/-- `_build_synonyms`: schema synonyms (or the code with underscores turned
into spaces when the schema list is falsy) plus the hardcoded list, each
normalized, empty normalizations dropped. -/
def build_synonyms (kpi_schema : Schema) : List (String × List Chars) :=
  kpi_schema.map fun (code, meta) =>
    let base :=
      if meta.synonyms.isEmpty then
        [String.mk (code.toList.map (fun c => if c = '_' then ' ' else c))]
      else meta.synonyms
    let combined := base ++ ((dget code HARDCODED).getD [])
    (code, (combined.map (fun s => norm_text (some s))).filter (· ≠ []))

/-- `_build_units`. -/
def build_units (kpi_schema : Schema) : List (String × List String) :=
  kpi_schema.map fun (code, meta) => (code, meta.units)

/-- Column indices are Python ints: `n - 1` is `-1` for an empty header, and
a negative index counts from the end of the row. -/
structure Cols where
  kpi : ℤ
  unit : ℤ
  value : ℤ
  deriving Repr, DecidableEq

def containsAnyToken (h : Chars) (tokens : List String) : Bool :=
  tokens.any (fun t => strContains h t.toList)

/-- `re.match(r"20\d{2}$", h)`: the whole (normalized) header cell is `20`
followed by two digits. -/
def matchesYearHeader (h : Chars) : Bool :=
  match h with
  | ['2', '0', c, d] => c.isDigit && d.isDigit
  | _ => false

/-- `_detect_cols` (table_grid_extractor.py, lines 81–105).  Each keyword
match overwrites the previous one (the loop keeps assigning); the year
fallback fires only while `value` is still unset.  `kpi or 0` maps both
`None` and `0` to `0` and keeps any other index. -/
def detect_cols (header : Row) : Cols :=
  let norm := header.map norm_text
  let scanned := norm.enum.foldl
    (fun (acc : Option ℕ × Option ℕ × Option ℕ) (p : ℕ × Chars) =>
      let k := if containsAnyToken p.2 ["kpi", "metric", "kennzahl", "indicateur", "indicator"]
               then some p.1 else acc.1
      let u := if containsAnyToken p.2 ["unit", "einheit", "unite"]
               then some p.1 else acc.2.1
      let v := if containsAnyToken p.2 ["wert", "valeur", "value"]
               then some p.1 else acc.2.2
      let v := if matchesYearHeader p.2 ∧ v = none then some p.1 else v
      (k, u, v))
    (none, none, none)
  let n := header.length
  { kpi := (scanned.1.getD 0 : ℕ),
    unit := match scanned.2.1 with
            | some i => (i : ℤ)
            | none => if n > 1 then 1 else 0,
    value := match scanned.2.2 with
             | some i => (i : ℤ)
             | none => if n > 2 then 2 else (n : ℤ) - 1 }

/-- Python `row[i]` with negative indexing; `none` models an `IndexError`,
unreachable under the loop's bounds guard and non-empty-row guard. -/
def pyCell (row : Row) (i : ℤ) : Option (Option String) :=
  let j := if 0 ≤ i then i else i + row.length
  if 0 ≤ j ∧ j < (row.length : ℤ) then row.get? j.toNat else none

/-- `(row[i] or "").strip()`. -/
def cellStr (row : Row) (i : ℤ) : Chars :=
  match pyCell row i with
  | some (some s) => pyStrip s.toList
  | _ => []

/-- `re.search(r"\(([^)]+)\)", s)`: leftmost parenthesized group with
non-empty `)`-free content. -/
def findParen : Chars → Option Chars
  | [] => none
  | c :: rest =>
      if c = '(' then
        let sp := rest.span (· ≠ ')')
        match sp.2 with
        | ')' :: _ => if sp.1 ≠ [] then some sp.1 else findParen rest
        | _ => findParen rest
      else findParen rest

/-- The body of the data-row loop of `_extract_table_grid` (lines 125–184);
`none` is a `continue`. -/
def processRow (col : Cols) (syns : List (String × List Chars))
    (units : List (String × List String)) (row : Row) :
    Option (String × RawEntry) :=
  if row = [] then none
  else if (row.length : ℤ) ≤ max col.kpi (max col.unit col.value) then none
  else
    let kpi_raw := cellStr row col.kpi
    let unit_raw := cellStr row col.unit
    let value_raw := cellStr row col.value
    if kpi_raw = [] ∨ value_raw = [] then none
    else
      let kpi_norm := norm_text_core kpi_raw
      match syns.find? (fun p => p.2.any (fun s => strContains kpi_norm s)) with
      | none => none
      | some matched =>
          let allowed_units := (dget matched.1 units).getD []
          -- `raw_unit = unit_raw or None`
          let raw_unit0 : Option Chars := if unit_raw = [] then none else some unit_raw
          -- a "unit" cell containing digits is treated as mis-parsed
          let raw_unit1 :=
            match raw_unit0 with
            | some ru => if ru.any Char.isDigit then none else some ru
            | none => none
          -- unit inside parentheses in the KPI label
          let raw_unit2 :=
            match raw_unit1 with
            | none => (findParen kpi_raw).map pyStrip
            | some ru => some ru
          let final_unit0 : Option String :=
            match raw_unit2 with
            | some ru => allowed_units.find? (fun u => norm_unit ru = norm_unit u.toList)
            | none => none
          let pick :=
            if final_unit0 = none ∧ allowed_units.length = 1 then
              (allowed_units.head?, allowed_units.head?.map String.toList)
            else (final_unit0, raw_unit2)
          some (matched.1,
            { raw_value := some (String.mk value_raw),
              raw_unit := pick.2.map String.mk,
              value := some (.str (String.mk value_raw)),
              unit := pick.1,
              confidence := some 0.9 })

/-- `_extract_table_grid` (lines 112–186): per-table loop.  Each matching
data row assigns `results[matched] = …`, so a later matching row for the same
KPI overwrites an earlier one. -/
def extract_table_grid (rows : Table) (syns : List (String × List Chars))
    (units : List (String × List String)) : RawResults :=
  if rows.length < 2 then []
  else
    match rows with
    | [] => []
    | header :: dataRows =>
        let col := detect_cols header
        dataRows.foldl
          (fun results row =>
            match processRow col syns units row with
            | none => results
            | some hit => dinsert hit.1 hit.2 results)
          []

/-- `extract_kpis_tables_grid` (lines 193–223) on the document's table list:
per-table hits are merged keeping only the first occurrence of each code
(`if code not in aggregated`). -/
def extract_kpis_tables_grid (tables : List Table) (kpi_schema : Schema) :
    RawResults :=
  let syns := build_synonyms kpi_schema
  let units := build_units kpi_schema
  tables.foldl
    (fun aggregated table =>
      (extract_table_grid table syns units).foldl
        (fun agg hit => if (dget hit.1 agg).isSome then agg else dinsert hit.1 hit.2 agg)
        aggregated)
    []

end TableGrid

/-! ## LLM backfill extractor (`llm_extractor.py`)

The OpenAI transport and `json.loads` are external collaborators: the
transport outcome is an `OracleStep` input and the JSON parser a function
parameter (`none` models a `json.JSONDecodeError`).  `Json` models Python's
decoded JSON values. -/

namespace Llm

inductive Json where
  | null
  | boolean (b : Bool)
  | num (q : Q)
  | str (s : String)
  | arr (xs : List Json)
  | obj (fields : List (String × Json))

/-- An entry of the extractor's standardized result dict:
`{ "raw_value": …, "raw_unit": …, "confidence": base_confidence }`, with
`raw_value` guaranteed non-`None` by the `if raw_value is None: continue`
guard. -/
structure LlmOut where
  raw_value : Json
  raw_unit : Option Json
  confidence : Q

/-- Outcome of the transport and response-structure phase (steps 1–2 of
`extract_kpis_llm`). -/
inductive OracleStep where
  | transportError                -- `client.chat.completions.create` raised
  | badStructure                  -- `completion.choices[0].message.content` raised
  | content (c : Option String)   -- the content field

/-- The backtick character (U+0060). -/
def btick : Char := Char.ofNat 96

/-- Python `s.strip(btick)`: strip backticks from both ends. -/
def stripBackticks (cs : Chars) : Chars :=
  ((cs.dropWhile (· = btick)).reverse.dropWhile (· = btick)).reverse

/-- Python `s.replace(pat, "")` for `pat` = three backticks then `json`
(left-to-right, non-overlapping). -/
def removeTicksJson : Chars → Chars
  | c1 :: c2 :: c3 :: 'j' :: 's' :: 'o' :: 'n' :: rest' =>
      if c1 = btick ∧ c2 = btick ∧ c3 = btick then removeTicksJson rest'
      else c1 :: removeTicksJson (c2 :: c3 :: 'j' :: 's' :: 'o' :: 'n' :: rest')
  | c :: rest => c :: removeTicksJson rest
  | [] => []

/-- Python `s.replace(pat, "")` for `pat` = three backticks. -/
def removeTicks3 : Chars → Chars
  | c1 :: c2 :: c3 :: rest' =>
      if c1 = btick ∧ c2 = btick ∧ c3 = btick then removeTicks3 rest'
      else c1 :: removeTicks3 (c2 :: c3 :: rest')
  | c :: rest => c :: removeTicks3 rest
  | [] => []

/-- The response cleaning of `extract_kpis_llm` (lines 95–101):
`content.strip().strip(btick).replace(tickjson, "").replace(ticks, "").strip()`. -/
def cleanContent (content : Chars) : Chars :=
  pyStrip (removeTicks3 (removeTicksJson (stripBackticks (pyStrip content))))

/-- The body of the step-4 loop of `extract_kpis_llm` (lines 118–131) for
one schema code.  `entry = data.get(code, {})` raises `AttributeError` when
`data` is not a dict; `entry.get("raw_value")` raises when the entry is not
a dict (in particular when it is `None`, i.e. JSON `null` — there is no
`or {}` guard here, unlike the v2 extractor); a JSON `null` value read by
`.get` is Python `None`. -/
def buildOutStep (data : Json) (base_confidence : Q)
    (out : List (String × LlmOut)) (code : String) :
    Except PyErr (List (String × LlmOut)) :=
  match data with
  | .obj fields =>
      match (dget code fields).getD (.obj []) with
      | .obj efields =>
          let raw_value : Option Json :=
            match dget "raw_value" efields with
            | some .null => none
            | none => none
            | some j => some j
          let raw_unit : Option Json :=
            match dget "raw_unit" efields with
            | some .null => none
            | none => none
            | some j => some j
          match raw_value with
          | none => .ok out
          | some rv =>
              .ok (dinsert code
                { raw_value := rv, raw_unit := raw_unit,
                  confidence := base_confidence } out)
      | _ => .error .attributeError
  | _ => .error .attributeError

/-- Step 4 of `extract_kpis_llm` (lines 116–133): build the standardized
result dict, iterating over the schema codes. -/
def buildOut (data : Json) (schemaCodes : List String) (base_confidence : Q) :
    Except PyErr (List (String × LlmOut)) :=
  schemaCodes.foldlM (buildOutStep data base_confidence) []

/-- `extract_kpis_llm` (llm_extractor.py, lines 40–133) as a function of the
API-key presence, the transport outcome and the JSON parser. -/
def extract_kpis_llm (loads : String → Option Json) (hasApiKey : Bool)
    (resp : OracleStep) (kpi_schema : Schema) (base_confidence : Q) :
    Except PyErr (List (String × LlmOut)) :=
  if ¬ hasApiKey then .ok []
  else
    match resp with
    | .transportError => .ok []
    | .badStructure => .ok []
    | .content none => .ok []
    | .content (some content) =>
        if content = "" then .ok []
        else
          match loads (String.mk (cleanContent content.toList)) with
          | none => .ok []
          | some data => buildOut data (kpi_schema.map Prod.fst) base_confidence

end Llm

/-! ## Specification-side selection rule

`prioritySelect` is written from the amended claim C1, for comparison with
the fusion code: when no candidate carries a `_score` key (which is what the
normalizers guarantee), the fused entry is that of the highest-priority
present source — table_grid, then table_plain, then regex, then nlp —
irrespective of the candidates' `confidence` fields. -/

def prioritySelect (regex_norm table_grid_norm table_plain_norm nlp_norm : NormResults)
    (code : String) : FusedEntry :=
  match dget code table_grid_norm with
  | some e => spreadNorm e ["table_grid"]
  | none =>
    match dget code table_plain_norm with
    | some e => spreadNorm e ["table_plain"]
    | none =>
      match dget code regex_norm with
      | some e => spreadNorm e ["regex"]
      | none =>
        match dget code nlp_norm with
        | some e => spreadNorm e ["nlp"]
        | none => unresolvedFused

/-! ## Dictionary lemmas -/

theorem dget_dinsert_self {α : Type} (k : String) (v : α) (m : List (String × α)) :
    dget k (dinsert k v m) = some v := by
  induction m with
  | nil => simp [dget, dinsert]
  | cons p rest ih =>
      by_cases h : p.1 = k
      · simp [dinsert, h, dget]
      · simp [dinsert, h, dget, ih]

theorem dget_dinsert_ne {α : Type} {k k' : String} (v : α) (m : List (String × α))
    (h : k' ≠ k) : dget k (dinsert k' v m) = dget k m := by
  induction m with
  | nil => simp [dget, dinsert, h]
  | cons p rest ih =>
      by_cases hp : p.1 = k'
      · simp [dinsert, hp, dget, h, hp ▸ h]
      · simp only [dinsert, hp, if_false, dget]
        by_cases hk : p.1 = k <;> simp [hk, ih]

theorem dget_mem_snd {α : Type} {k : String} {v : α} {m : List (String × α)}
    (h : dget k m = some v) : v ∈ m.map Prod.snd := by
  induction m with
  | nil => simp [dget] at h
  | cons p rest ih =>
      by_cases hp : p.1 = k
      · simp [dget, hp] at h
        simp [h]
      · simp [dget, hp] at h
        simp [ih h]

theorem snd_of_mem_dinsert {α : Type} {k : String} {v x : α} {m : List (String × α)}
    (h : x ∈ (dinsert k v m).map Prod.snd) : x = v ∨ x ∈ m.map Prod.snd := by
  induction m with
  | nil => simpa [dinsert] using h
  | cons p rest ih =>
      by_cases hp : p.1 = k
      · simp [dinsert, hp] at h
        rcases h with h | h
        · exact .inl h
        · exact .inr (by simp [h])
      · simp [dinsert, hp] at h
        rcases h with h | h
        · exact .inr (by simp [h])
        · rcases ih (by simpa using h) with h' | h'
          · exact .inl h'
          · exact .inr (by simp [h'])

theorem dget_eq_none_iff {α : Type} {k : String} {m : List (String × α)} :
    dget k m = none ↔ k ∉ m.map Prod.fst := by
  induction m with
  | nil => simp [dget]
  | cons p rest ih =>
      by_cases hp : p.1 = k
      · simp [dget, hp]
      · simp [dget, hp, ih, Ne.symm hp]

theorem fst_dinsert_mem {α : Type} {k : String} (v : α) {m : List (String × α)}
    (h : k ∈ m.map Prod.fst) : (dinsert k v m).map Prod.fst = m.map Prod.fst := by
  induction m with
  | nil => simp at h
  | cons p rest ih =>
      by_cases hp : p.1 = k
      · simp [dinsert, hp]
      · rw [List.map_cons, List.mem_cons] at h
        rcases h with h | h
        · exact absurd h.symm hp
        · simp [dinsert, hp, ih h]

theorem fst_dinsert_fresh {α : Type} {k : String} (v : α) {m : List (String × α)}
    (h : k ∉ m.map Prod.fst) : (dinsert k v m).map Prod.fst = m.map Prod.fst ++ [k] := by
  induction m with
  | nil => simp [dinsert]
  | cons p rest ih =>
      rw [List.map_cons, List.mem_cons] at h
      push_neg at h
      simp only [dinsert]
      rw [if_neg (fun he => h.1 he.symm)]
      simp [ih h.2]

theorem nodup_dinsert {α : Type} {k : String} (v : α) {m : List (String × α)}
    (h : (m.map Prod.fst).Nodup) : ((dinsert k v m).map Prod.fst).Nodup := by
  by_cases hk : k ∈ m.map Prod.fst
  · rwa [fst_dinsert_mem v hk]
  · rw [fst_dinsert_fresh v hk]
    refine List.Nodup.append h (by simp) ?_
    intro a ha hb
    simp at hb
    exact hk (hb ▸ ha)

theorem dget_of_mem_nodup {α : Type} {k : String} {v : α} {m : List (String × α)}
    (h : (k, v) ∈ m) (hn : (m.map Prod.fst).Nodup) : dget k m = some v := by
  induction m with
  | nil => simp at h
  | cons p rest ih =>
      rw [List.map_cons, List.nodup_cons] at hn
      rcases List.mem_cons.mp h with h | h
      · simp [dget, ← h]
      · have hkmem : k ∈ rest.map Prod.fst := List.mem_map_of_mem Prod.fst h
        have hne : p.1 ≠ k := fun he => hn.1 (by rw [he]; exact hkmem)
        simp [dget, hne, ih h hn.2]

theorem dget_map_entry {α β : Type} (f : String → α → β) (m : List (String × α))
    (k : String) :
    dget k (m.map fun p => (p.1, f p.1 p.2)) = (dget k m).map (f k) := by
  induction m with
  | nil => simp [dget]
  | cons p rest ih =>
      by_cases hp : p.1 = k
      · simp [dget, hp]
      · simp [dget, hp, ih]

/-! ## Fold lemmas for the fusion and backfill loops -/

theorem dget_foldl_dinsert {α : Type} (g : String → α) (codes : List String)
    (init : List (String × α)) (code : String) :
    dget code (codes.foldl (fun m c => dinsert c (g c) m) init) =
      if code ∈ codes then some (g code) else dget code init := by
  induction codes generalizing init with
  | nil => simp
  | cons c rest ih =>
      rw [List.foldl_cons, ih]
      by_cases hmem : code ∈ rest
      · simp [hmem]
      · by_cases hc : code = c
        · simp [hmem, hc, dget_dinsert_self]
        · simp [hmem, hc, dget_dinsert_ne _ _ (Ne.symm hc)]

theorem snd_foldl_dinsert_pred {α : Type} (P : α → Prop) (g : String → α)
    (codes : List String) (init : List (String × α))
    (h0 : ∀ x ∈ init.map Prod.snd, P x) (hg : ∀ c, P (g c)) :
    ∀ x ∈ ((codes.foldl (fun m c => dinsert c (g c) m) init)).map Prod.snd, P x := by
  induction codes generalizing init with
  | nil => exact h0
  | cons c rest ih =>
      rw [List.foldl_cons]
      refine ih _ ?_
      intro x hx
      rcases snd_of_mem_dinsert hx with h | h
      · exact h ▸ hg c
      · exact h0 x h

theorem fst_foldl_dinsert {α : Type} (g : String → α) (codes : List String)
    (init : List (String × α)) (hn : codes.Nodup)
    (hd : ∀ c ∈ codes, c ∉ init.map Prod.fst) :
    (codes.foldl (fun m c => dinsert c (g c) m) init).map Prod.fst =
      init.map Prod.fst ++ codes := by
  induction codes generalizing init with
  | nil => simp
  | cons c rest ih =>
      rw [List.foldl_cons]
      rw [List.nodup_cons] at hn
      have hfresh : c ∉ init.map Prod.fst := hd c (by simp)
      have step := fst_dinsert_fresh (g c) hfresh
      rw [ih _ hn.2 ?_, step]
      · simp
      · intro c' hc'
        rw [step]
        simp only [List.mem_append, List.mem_singleton]
        rintro (h | h)
        · exact hd c' (by simp [hc']) h
        · exact hn.1 (h ▸ hc')

theorem nodup_foldl_dinsert {α : Type} (g : String → α) (codes : List String)
    (init : List (String × α)) (h : (init.map Prod.fst).Nodup) :
    ((codes.foldl (fun m c => dinsert c (g c) m) init).map Prod.fst).Nodup := by
  induction codes generalizing init with
  | nil => exact h
  | cons c rest ih => exact ih _ (nodup_dinsert _ h)

/-! ## Fusion lemmas -/

theorem fuse_dget (r g p n l : NormResults) (codes : List String) (code : String) :
    dget code (fuse_all_sources r g p n l codes) =
      if code ∈ codes then some (fuseOne r g p n code) else none := by
  have := dget_foldl_dinsert (fuseOne r g p n) codes [] code
  simpa [fuse_all_sources, dget] using this

theorem fuse_fst (r g p n l : NormResults) (codes : List String) (hn : codes.Nodup) :
    (fuse_all_sources r g p n l codes).map Prod.fst = codes := by
  have := fst_foldl_dinsert (fuseOne r g p n) codes [] hn (by simp)
  simpa [fuse_all_sources] using this

theorem fuse_nodup (r g p n l : NormResults) (codes : List String) :
    ((fuse_all_sources r g p n l codes).map Prod.fst).Nodup := by
  have := nodup_foldl_dinsert (fuseOne r g p n) codes [] (by simp)
  simpa [fuse_all_sources] using this

theorem snd_fuse_pred (P : FusedEntry → Prop) (r g p n l : NormResults)
    (codes : List String) (hg : ∀ c, P (fuseOne r g p n c)) :
    ∀ x ∈ (fuse_all_sources r g p n l codes).map Prod.snd, P x := by
  have := snd_foldl_dinsert_pred P (fuseOne r g p n) codes [] (by simp) hg
  simpa [fuse_all_sources] using this

/-! ## Backfill lemmas -/

theorem applyBackfill_dget_keep (llm : NormResults) (missing : List String)
    (fused : FusedMap) (code : String) (e : FusedEntry)
    (h : dget code fused = some e) (hv : e.value.isSome) :
    dget code (applyBackfill llm missing fused) = some e := by
  induction missing generalizing fused with
  | nil => exact h
  | cons c rest ih =>
      simp only [applyBackfill, List.foldl_cons] at ih ⊢
      rcases hc : dget c llm with _ | entry
      · simp only [hc]
        exact ih fused h
      · simp only [hc]
        by_cases hcc : c = code
        · subst hcc
          rw [if_pos (by rw [h]; simpa using hv)]
          exact ih fused h
        · by_cases hguard : ((dget c fused).bind (fun e => e.value)).isSome = true
          · rw [if_pos hguard]
            exact ih fused h
          · rw [if_neg hguard]
            exact ih _ (by rw [dget_dinsert_ne _ _ hcc]; exact h)

theorem applyBackfill_dget_of_llm_none (llm : NormResults) (missing : List String)
    (fused : FusedMap) (code : String) (h : dget code llm = none) :
    dget code (applyBackfill llm missing fused) = dget code fused := by
  induction missing generalizing fused with
  | nil => rfl
  | cons c rest ih =>
      simp only [applyBackfill, List.foldl_cons] at ih ⊢
      by_cases hcc : c = code
      · subst hcc
        simp only [h]
        exact ih fused
      · rcases hc : dget c llm with _ | entry
        · simp only [hc]
          exact ih fused
        · simp only [hc]
          by_cases hguard : ((dget c fused).bind (fun e => e.value)).isSome = true
          · rw [if_pos hguard]
            exact ih fused
          · rw [if_neg hguard]
            rw [ih _, dget_dinsert_ne _ _ hcc]

theorem snd_applyBackfill_pred (P : FusedEntry → Prop) (llm : NormResults)
    (missing : List String) (fused : FusedMap)
    (h0 : ∀ x ∈ fused.map Prod.snd, P x)
    (hllm : ∀ e ∈ llm.map Prod.snd, P (spreadNorm e ["llm"])) :
    ∀ x ∈ (applyBackfill llm missing fused).map Prod.snd, P x := by
  induction missing generalizing fused with
  | nil => exact h0
  | cons c rest ih =>
      simp only [applyBackfill, List.foldl_cons] at ih ⊢
      rcases hc : dget c llm with _ | entry
      · simp only [hc]
        exact ih fused h0
      · simp only [hc]
        by_cases hguard : ((dget c fused).bind (fun e => e.value)).isSome = true
        · rw [if_pos hguard]
          exact ih fused h0
        · rw [if_neg hguard]
          refine ih _ ?_
          intro x hx
          rcases snd_of_mem_dinsert hx with h | h
          · exact h ▸ hllm entry (dget_mem_snd hc)
          · exact h0 x h

theorem fst_applyBackfill (llm : NormResults) (missing : List String)
    (fused : FusedMap) (hsub : ∀ c ∈ missing, c ∈ fused.map Prod.fst) :
    (applyBackfill llm missing fused).map Prod.fst = fused.map Prod.fst := by
  induction missing generalizing fused with
  | nil => rfl
  | cons c rest ih =>
      simp only [applyBackfill, List.foldl_cons] at ih ⊢
      rcases hc : dget c llm with _ | entry
      · simp only [hc]
        exact ih fused (fun c' hc' => hsub c' (by simp [hc']))
      · simp only [hc]
        by_cases hguard : ((dget c fused).bind (fun e => e.value)).isSome = true
        · rw [if_pos hguard]
          exact ih fused (fun c' hc' => hsub c' (by simp [hc']))
        · rw [if_neg hguard]
          have hkeys := fst_dinsert_mem (spreadNorm entry ["llm"]) (hsub c (by simp))
          rw [ih _ ?_, hkeys]
          intro c' hc'
          rw [hkeys]
          exact hsub c' (by simp [hc'])

/-! ## Normalizer lemmas -/

theorem normalize_regex_dget (raw : RawResults) (schema : Schema) (code : String) :
    dget code (normalize_regex_result raw schema) =
      (dget code raw).map (normalizeRegexEntry schema code) :=
  dget_map_entry _ raw code

theorem normalize_table_grid_dget (raw : RawResults) (schema : Schema) (code : String) :
    dget code (normalize_table_grid_result raw schema) =
      (dget code raw).map (normalizeTableGridEntry schema code) :=
  dget_map_entry _ raw code

theorem normalize_table_plain_dget (raw : RawResults) (schema : Schema) (code : String) :
    dget code (normalize_table_plain_result raw schema) =
      (dget code raw).map (normalizeTablePlainEntry schema code) :=
  dget_map_entry _ raw code

theorem normalize_nlp_dget (raw : RawResults) (schema : Schema) (code : String) :
    dget code (normalize_nlp_result raw schema) =
      (dget code raw).map (normalizeNlpEntry schema code) :=
  dget_map_entry _ raw code

theorem normalize_llm_dget (raw : RawResults) (schema : Schema) (code : String) :
    dget code (normalize_llm_result raw schema) =
      (dget code raw).map (normalizeLlmEntry schema code) :=
  dget_map_entry _ raw code

/-- No normalizer ever writes a `_score` or `status` key. -/
theorem normalizeRegexEntry_score_status (schema : Schema) (code : String)
    (e : RawEntry) :
    (normalizeRegexEntry schema code e).score = none ∧
      (normalizeRegexEntry schema code e).status = none := by
  unfold normalizeRegexEntry
  rcases parse_scaled_number e.raw_value with _ | v <;> simp

theorem normalizeTableGridEntry_score_status (schema : Schema) (code : String)
    (e : RawEntry) :
    (normalizeTableGridEntry schema code e).score = none ∧
      (normalizeTableGridEntry schema code e).status = none := by
  unfold normalizeTableGridEntry
  exact ⟨rfl, rfl⟩

theorem normalizeTablePlainEntry_score_status (schema : Schema) (code : String)
    (e : RawEntry) :
    (normalizeTablePlainEntry schema code e).score = none ∧
      (normalizeTablePlainEntry schema code e).status = none := by
  unfold normalizeTablePlainEntry
  exact ⟨rfl, rfl⟩

theorem normalizeNlpEntry_score_status (schema : Schema) (code : String)
    (e : RawEntry) :
    (normalizeNlpEntry schema code e).score = none ∧
      (normalizeNlpEntry schema code e).status = none := by
  unfold normalizeNlpEntry
  exact ⟨rfl, rfl⟩

theorem normalizeLlmEntry_score_status (schema : Schema) (code : String)
    (e : RawEntry) :
    (normalizeLlmEntry schema code e).score = none ∧
      (normalizeLlmEntry schema code e).status = none := by
  unfold normalizeLlmEntry
  exact ⟨rfl, rfl⟩

theorem snd_normalize_pred (raw : RawResults) (schema : Schema)
    (f : Schema → String → RawEntry → NormEntry) (P : NormEntry → Prop)
    (hf : ∀ s c e, P (f s c e))
    (x : NormEntry) (hx : x ∈ (raw.map fun p => (p.1, f schema p.1 p.2)).map Prod.snd) :
    P x := by
  simp only [List.map_map, List.mem_map] at hx
  obtain ⟨p, _, hp⟩ := hx
  cases hp
  exact hf schema p.1 p.2

/-! ## Fusion selection lemmas -/

theorem foldl_best_mem (rest : List Cand) :
    ∀ c0 : Cand,
      rest.foldl (fun b c' => if candKeyGT c' b then c' else b) c0 ∈ c0 :: rest := by
  induction rest with
  | nil => intro c0; simp
  | cons c1 rest ih =>
      intro c0
      rw [List.foldl_cons]
      rcases List.mem_cons.mp (ih (if candKeyGT c1 c0 then c1 else c0)) with h | h
      · rw [h]
        by_cases hgt : candKeyGT c1 c0 = true <;> simp [hgt]
      · simp [h]

theorem bestCand_mem {cs : List Cand} {c : Cand} (h : bestCand cs = some c) :
    c ∈ cs := by
  match cs with
  | [] => simp [bestCand] at h
  | c0 :: rest =>
      simp only [bestCand, Option.some_inj] at h
      subst h
      exact foldl_best_mem rest c0

theorem collectCands_entry_sources {r g p n : NormResults} {code : String}
    {c : Cand} (h : c ∈ collectCands r g p n code) :
    dget code g = some c.entry ∨ dget code p = some c.entry ∨
      dget code r = some c.entry ∨ dget code n = some c.entry := by
  rcases hg : dget code g with _ | eg <;>
    rcases hp : dget code p with _ | ep <;>
      rcases hr : dget code r with _ | er <;>
        rcases hn : dget code n with _ | en <;>
          simp_all [collectCands] <;> aesop

theorem candKeyGT_of_zero_scores {a b : Cand} (ha : a.score = 0) (hb : b.score = 0) :
    candKeyGT a b = decide (b.priority < a.priority) := by
  have h1 : decide ((0 : Q) < 0) = false := by decide
  have h2 : decide ((0 : Q) = 0) = true := by decide
  simp [candKeyGT, ha, hb, h1, h2]

set_option maxHeartbeats 3000000 in
/-- With no `_score` key on any candidate entry, `fuse_all_sources`' per-code
selection degenerates to the fixed source priority. -/
theorem fuseOne_priority (r g p n : NormResults) (code : String)
    (hr : ∀ e ∈ r.map Prod.snd, e.score = none)
    (hg : ∀ e ∈ g.map Prod.snd, e.score = none)
    (hp : ∀ e ∈ p.map Prod.snd, e.score = none)
    (hn : ∀ e ∈ n.map Prod.snd, e.score = none) :
    fuseOne r g p n code = prioritySelect r g p n code := by
  rcases hdg : dget code g with _ | eg <;>
    rcases hdp : dget code p with _ | ep <;>
      rcases hdr : dget code r with _ | er <;>
        rcases hdn : dget code n with _ | en
  all_goals try have hsg : eg.score = none := hg eg (dget_mem_snd hdg)
  all_goals try have hsp : ep.score = none := hp ep (dget_mem_snd hdp)
  all_goals try have hsr : er.score = none := hr er (dget_mem_snd hdr)
  all_goals try have hsn : en.score = none := hn en (dget_mem_snd hdn)
  all_goals have pg : dget "table_grid" PRIORITY_ORDER = some 4 := rfl
  all_goals have pp : dget "table_plain" PRIORITY_ORDER = some 3 := rfl
  all_goals have pr : dget "regex" PRIORITY_ORDER = some 2 := rfl
  all_goals have pn : dget "nlp" PRIORITY_ORDER = some 1 := rfl
  all_goals
    simp [fuseOne, prioritySelect, collectCands, bestCand, hdg, hdp, hdr, hdn,
          candKeyGT_of_zero_scores, *]

/-! ## Helper lemmas for the numeric-parser claims -/

theorem tryFloat_ok (cs : Chars) : ∃ o, tryFloat cs = Except.ok o := by
  cases h : pyFloat cs
  · exact ⟨none, by unfold tryFloat; rw [h]⟩
  · exact ⟨some _, by unfold tryFloat; rw [h]⟩

theorem parse_locale_number_exc_ok (num : Option String) :
    ∃ o, parse_locale_number_exc num = Except.ok o := by
  rcases num with _ | n
  · exact ⟨none, rfl⟩
  · simp only [parse_locale_number_exc]
    split
    · exact ⟨none, rfl⟩
    · split
      · exact ⟨none, rfl⟩
      · split
        · exact tryFloat_ok _
        · split
          · exact tryFloat_ok _
          · split
            · exact tryFloat_ok _
            · split
              · exact tryFloat_ok _
              · exact tryFloat_ok _

theorem parse_scaled_number_exc_ok (raw : Option String) :
    ∃ o, parse_scaled_number_exc raw = Except.ok o := by
  rcases raw with _ | r
  · exact ⟨none, rfl⟩
  · simp only [parse_scaled_number_exc]
    split
    · exact ⟨none, rfl⟩
    · split
      · exact ⟨none, rfl⟩
      · obtain ⟨o, ho⟩ := parse_locale_number_exc_ok
          (some (String.mk (removeScaleWords
            (normalizeSpaces ((pyStrip r.toList).map Char.toLower)))))
        rw [ho]
        cases o
        · exact ⟨none, rfl⟩
        · exact ⟨some _, rfl⟩

/-! ## Claim theorems -/

/-- C6: the Numeric Parser maps "123,400", "123.400" and "1 200 000" to
123400.0, 123400.0 and 1200000.0, maps "1.2 million" to 1200000.0 and "120k"
to 120000.0 (magnitude multiplier applied after parsing the numeric core),
and maps "abc" to null, following the fixed trial order embedded in
`parse_locale_number` (grouped comma/dot thousands, space-grouped thousands,
plain integer, single separator as decimal point, strip-all-separators
fallback). -/
theorem c6_numeric_parser_examples :
    parse_locale_number (some "123,400") = some 123400 ∧
    parse_locale_number (some "123.400") = some 123400 ∧
    parse_locale_number (some "1 200 000") = some 1200000 ∧
    parse_scaled_number (some "1.2 million") = some 1200000 ∧
    parse_scaled_number (some "120k") = some 120000 ∧
    parse_scaled_number (some "abc") = none := by
  refine ⟨?_, ?_, ?_, ?_, ?_, ?_⟩ <;> decide

/-- C9: for every input (including null, the empty string and arbitrary
non-numeric text) the Numeric Parser returns a float or null and never
raises: both `parse_locale_number` and `parse_scaled_number`, embedded with
their `try/except` blocks made explicit in the `Except PyErr` monad, always
return `Except.ok`, every failure branch yielding `none`. -/
theorem c9_numeric_parser_never_raises :
    (∀ num : Option String, ∃ o, parse_locale_number_exc num = Except.ok o) ∧
    (∀ raw : Option String, ∃ o, parse_scaled_number_exc raw = Except.ok o) :=
  ⟨parse_locale_number_exc_ok, parse_scaled_number_exc_ok⟩

/-- C5 counterexample: for a KPI with the two canonical units
`["MWh", "GJ"]` and the unrecognized raw unit `"XYZ"` (no exact match, no
alias-table entry), the claim requires the resolver to return a null unit —
but `normalize_regex_result` resolves the unit to `"MWh"` (the first
canonical unit) with multiplier 1.0, i.e. the parsed value 100 is kept and
the unit is guessed. -/
theorem c5_counterexample :
    RegexNorm.normalize_unit (some "XYZ") (some "MWh") = (some "MWh", 1) ∧
    normalize_regex_result
        [("k", { raw_value := some "100", raw_unit := some "XYZ",
                 confidence := some 0.8 })]
        [("k", { units := ["MWh", "GJ"], synonyms := [] })]
      = [("k", { raw_value := some "100", raw_unit := some "XYZ",
                 value := some 100, unit := some "MWh",
                 confidence := some 0.8 })] ∧
    (some "MWh" : Option String) ≠ none := by
  refine ⟨by decide, by decide, by decide⟩

/-- C5 amended: the regex normalizer's unit resolver resolves only against
the KPI's first canonical unit; when that canonical unit exists it always
returns it, never null: multiplier 1.0 on an exact normalized match, the
alias-table multiplier when the alias target matches the canonical unit, and
multiplier 1.0 otherwise (missing raw unit, unknown raw unit, or alias whose
target does not match) — so with an unrecognized raw unit it falls back to
the first canonical unit rather than returning (null, 1.0). -/
theorem c5_amended :
    (∀ (raw can : Option String), optFalsy can = false →
        (RegexNorm.normalize_unit raw can).1 = can) ∧
    (∀ raw can : String, optFalsy (some raw) = false → optFalsy (some can) = false →
        RegexNorm.norm_unit_token raw.toList = RegexNorm.norm_unit_token can.toList →
        RegexNorm.normalize_unit (some raw) (some can) = (some can, 1)) ∧
    (∀ (raw can target : String) (mult : Q),
        optFalsy (some raw) = false → optFalsy (some can) = false →
        RegexNorm.norm_unit_token raw.toList ≠ RegexNorm.norm_unit_token can.toList →
        dget (String.mk (RegexNorm.norm_unit_token raw.toList))
            RegexNorm.UNIT_CONVERSIONS = some (target, mult) →
        RegexNorm.norm_unit_token target.toList = RegexNorm.norm_unit_token can.toList →
        RegexNorm.normalize_unit (some raw) (some can) = (some can, mult)) ∧
    (∀ raw can : String, optFalsy (some raw) = false → optFalsy (some can) = false →
        RegexNorm.norm_unit_token raw.toList ≠ RegexNorm.norm_unit_token can.toList →
        (∀ target mult,
          dget (String.mk (RegexNorm.norm_unit_token raw.toList))
              RegexNorm.UNIT_CONVERSIONS = some (target, mult) →
          RegexNorm.norm_unit_token target.toList ≠ RegexNorm.norm_unit_token can.toList) →
        RegexNorm.normalize_unit (some raw) (some can) = (some can, 1)) := by
  refine ⟨?_, ?_, ?_, ?_⟩
  · intro raw can h
    unfold RegexNorm.normalize_unit
    rw [if_neg (by simp [h])]
    by_cases h2 : optFalsy raw = true
    · simp [h2]
    · rw [if_neg h2]
      dsimp only
      split
      · rfl
      · split
        · split <;> rfl
        · rfl
  · intro raw can h1 h2 heq
    have heq' : RegexNorm.norm_unit_token ((some raw).getD "").toList =
        RegexNorm.norm_unit_token ((some can).getD "").toList := by simpa using heq
    unfold RegexNorm.normalize_unit
    rw [if_neg (by simp [h2]), if_neg (by simp [h1])]
    dsimp only
    rw [if_pos heq']
  · intro raw can target mult h1 h2 hne hdg htgt
    have hne' : ¬ (RegexNorm.norm_unit_token ((some raw).getD "").toList =
        RegexNorm.norm_unit_token ((some can).getD "").toList) := by simpa using hne
    have hdg' : dget (String.mk (RegexNorm.norm_unit_token ((some raw).getD "").toList))
        RegexNorm.UNIT_CONVERSIONS = some (target, mult) := by simpa using hdg
    have htgt' : RegexNorm.norm_unit_token target.toList =
        RegexNorm.norm_unit_token ((some can).getD "").toList := by simpa using htgt
    unfold RegexNorm.normalize_unit
    rw [if_neg (by simp [h2]), if_neg (by simp [h1])]
    dsimp only
    rw [if_neg hne']
    simp only [hdg']
    rw [if_pos htgt']
  · intro raw can h1 h2 hne halias
    have hne' : ¬ (RegexNorm.norm_unit_token ((some raw).getD "").toList =
        RegexNorm.norm_unit_token ((some can).getD "").toList) := by simpa using hne
    unfold RegexNorm.normalize_unit
    rw [if_neg (by simp [h2]), if_neg (by simp [h1])]
    dsimp only
    rw [if_neg hne']
    rcases hdg : dget (String.mk (RegexNorm.norm_unit_token ((some raw).getD "").toList))
        RegexNorm.UNIT_CONVERSIONS with _ | ⟨t, m⟩
    · simp only [hdg]
    · simp only [hdg]
      have := halias t m (by simpa using hdg)
      rw [if_neg (by simpa using this)]

/-- Witness for `c5_amended` at the spec's own examples: a missing raw unit
with canonical `MWh`; the exact match `tCO2e`; the alias `kWh → MWh` with
multiplier 1/1000; and the unknown unit `GJ` against canonical `MWh`, which
resolves (by fallback) to `MWh` with multiplier 1. -/
theorem c5_amended_witness :
    (RegexNorm.normalize_unit none (some "MWh")).1 = some "MWh" ∧
    RegexNorm.normalize_unit (some "tCO2e") (some "tCO2e") = (some "tCO2e", 1) ∧
    RegexNorm.normalize_unit (some "kWh") (some "MWh") = (some "MWh", 1 / 1000) ∧
    RegexNorm.normalize_unit (some "GJ") (some "MWh") = (some "MWh", 1) :=
  ⟨c5_amended.1 none (some "MWh") (by decide),
   c5_amended.2.1 "tCO2e" "tCO2e" (by decide) (by decide) (by decide),
   c5_amended.2.2.1 "kWh" "MWh" "MWh" (1 / 1000) (by decide) (by decide) (by decide)
     (by decide) (by decide),
   c5_amended.2.2.2 "GJ" "MWh" (by decide) (by decide) (by decide)
     (fun t m h => by
       rw [show dget (String.mk (RegexNorm.norm_unit_token "GJ".toList))
             RegexNorm.UNIT_CONVERSIONS = none from rfl] at h
       exact Option.noConfusion h)⟩

/-- C1 counterexample: two same-KPI candidates, an nlp candidate with
confidence 0.9 and a table-grid candidate with confidence 0.5, neither
carrying a `_score` key (as no normalizer ever writes one).  The claim says
the strictly-higher-confidence nlp candidate must be selected; the code
selects the table-grid candidate — both candidates' sort scores default to
0.0 and the priority tie-break decides. -/
theorem c1_counterexample :
    dget "k" (fuse_all_sources
        []
        [("k", { value := some 20, unit := some "tCO2e", confidence := some 0.5 })]
        []
        [("k", { value := some 10, unit := some "tCO2e", confidence := some 0.9 })]
        [] ["k"])
      = some { value := some 20, unit := some "tCO2e", confidence := some 0.5,
               source := ["table_grid"] } ∧
    (0.5 : Q) < 0.9 :=
  ⟨by decide, by decide⟩

/-- C1 amended: the fusion engine orders candidates by the internal
`_score.score` value (defaulting to 0.0 when the `_score` key is absent) with
source priority as tie-break — candidate `confidence` plays no role in
selection.  Since no normalizer ever attaches a `_score` key (first four
conjuncts), every candidate scores 0.0 and fusion always selects the
highest-priority present source: table_grid > table_plain > regex > nlp
(`prioritySelect`), regardless of the candidates' confidences. -/
theorem c1_amended :
    (∀ (raw : RawResults) (schema : Schema),
        ∀ e ∈ (normalize_regex_result raw schema).map Prod.snd, e.score = none) ∧
    (∀ (raw : RawResults) (schema : Schema),
        ∀ e ∈ (normalize_table_grid_result raw schema).map Prod.snd, e.score = none) ∧
    (∀ (raw : RawResults) (schema : Schema),
        ∀ e ∈ (normalize_table_plain_result raw schema).map Prod.snd, e.score = none) ∧
    (∀ (raw : RawResults) (schema : Schema),
        ∀ e ∈ (normalize_nlp_result raw schema).map Prod.snd, e.score = none) ∧
    (∀ (r g p n l : NormResults) (codes : List String) (code : String),
        (∀ e ∈ r.map Prod.snd, e.score = none) →
        (∀ e ∈ g.map Prod.snd, e.score = none) →
        (∀ e ∈ p.map Prod.snd, e.score = none) →
        (∀ e ∈ n.map Prod.snd, e.score = none) →
        code ∈ codes →
        dget code (fuse_all_sources r g p n l codes) =
          some (prioritySelect r g p n code)) := by
  refine ⟨?_, ?_, ?_, ?_, ?_⟩
  · intro raw schema
    exact snd_normalize_pred raw schema _ _
      (fun s c e => (normalizeRegexEntry_score_status s c e).1)
  · intro raw schema
    exact snd_normalize_pred raw schema _ _
      (fun s c e => (normalizeTableGridEntry_score_status s c e).1)
  · intro raw schema
    exact snd_normalize_pred raw schema _ _
      (fun s c e => (normalizeTablePlainEntry_score_status s c e).1)
  · intro raw schema
    exact snd_normalize_pred raw schema _ _
      (fun s c e => (normalizeNlpEntry_score_status s c e).1)
  · intro r g p n l codes code hr hg hp hn hmem
    rw [fuse_dget, if_pos hmem, fuseOne_priority r g p n code hr hg hp hn]

/-- Witness for `c1_amended` on the counterexample data: the fused entry for
`"k"` is the priority selection, i.e. the lower-confidence table-grid
candidate. -/
theorem c1_amended_witness :
    dget "k" (fuse_all_sources
        []
        [("k", { value := some 20, unit := some "tCO2e", confidence := some 0.5 })]
        []
        [("k", { value := some 10, unit := some "tCO2e", confidence := some 0.9 })]
        [] ["k"])
      = some (prioritySelect
        []
        [("k", { value := some 20, unit := some "tCO2e", confidence := some 0.5 })]
        []
        [("k", { value := some 10, unit := some "tCO2e", confidence := some 0.9 })]
        "k") :=
  c1_amended.2.2.2.2
    [] [("k", { value := some 20, unit := some "tCO2e", confidence := some 0.5 })]
    [] [("k", { value := some 10, unit := some "tCO2e", confidence := some 0.9 })]
    [] ["k"] "k"
    (by decide) (by decide) (by decide) (by decide) (by decide)

/-! ## Pipeline entry analysis -/

/-- Every entry of the deterministic fused map is either the unresolved
literal or a spread of a normalizer output entry (which carries no `status`
key) with a singleton source. -/
theorem snd_pipelineDetFused_pred (schema : Schema)
    (graw praw rraw nraw : RawResults) (P : FusedEntry → Prop)
    (hunres : P unresolvedFused)
    (hspread : ∀ (e : NormEntry) (src : String), e.status = none →
      P (spreadNorm e [src])) :
    ∀ x ∈ (pipelineDetFused schema graw praw rraw nraw).map Prod.snd, P x := by
  refine snd_fuse_pred P _ _ _ _ _ _ ?_
  intro c
  unfold fuseOne
  rcases hb : bestCand (collectCands (normalize_regex_result rraw schema)
      (normalize_table_grid_result graw schema)
      (normalize_table_plain_result praw schema)
      (normalize_nlp_result nraw schema) c) with _ | best
  · exact hunres
  · have hmem := collectCands_entry_sources (bestCand_mem hb)
    have hstat : best.entry.status = none := by
      rcases hmem with h | h | h | h
      · have hm := dget_mem_snd h
        simp only [normalize_table_grid_result] at hm
        exact snd_normalize_pred _ _ _ (fun x => x.status = none)
          (fun s c' e' => (normalizeTableGridEntry_score_status s c' e').2) _ hm
      · have hm := dget_mem_snd h
        simp only [normalize_table_plain_result] at hm
        exact snd_normalize_pred _ _ _ (fun x => x.status = none)
          (fun s c' e' => (normalizeTablePlainEntry_score_status s c' e').2) _ hm
      · have hm := dget_mem_snd h
        simp only [normalize_regex_result] at hm
        exact snd_normalize_pred _ _ _ (fun x => x.status = none)
          (fun s c' e' => (normalizeRegexEntry_score_status s c' e').2) _ hm
      · have hm := dget_mem_snd h
        simp only [normalize_nlp_result] at hm
        exact snd_normalize_pred _ _ _ (fun x => x.status = none)
          (fun s c' e' => (normalizeNlpEntry_score_status s c' e').2) _ hm
    exact hspread best.entry best.source hstat

/-- Entries of `pipelineLlmNorm` carry no `status` key. -/
theorem snd_pipelineLlmNorm_status (schema : Schema)
    (graw praw rraw nraw : RawResults)
    (oracle : Schema → Except PyErr RawResults) :
    ∀ e ∈ (pipelineLlmNorm schema graw praw rraw nraw oracle).map Prod.snd,
      e.status = none := by
  intro e he
  rcases hcall : oracle (subsetSchema schema
      (pipelineMissing schema graw praw rraw nraw)) with errv | llm_raw
  · simp only [pipelineLlmNorm, hcall] at he
    simp at he
  · simp only [pipelineLlmNorm, hcall] at he
    simp only [normalize_llm_result] at he
    exact snd_normalize_pred _ _ _ (fun x => x.status = none)
      (fun s c' e' => (normalizeLlmEntry_score_status s c' e').2) _ he

/-- C10 (implicit): every `KPIResult` emitted by the pipeline has status
"Not Reported", including KPIs resolved with a non-null value — fused entries
built from normalizer output carry no `status` key and the result assembly
substitutes the default, so `status` never distinguishes resolved from
unresolved KPIs. -/
theorem c10_status_always_not_reported (schema : Schema)
    (graw praw rraw nraw : RawResults)
    (oracle : Schema → Except PyErr RawResults) :
    ∀ res ∈ run_on_pdf_core schema graw praw rraw nraw oracle,
      res.status = "Not Reported" := by
  intro res hres
  simp only [run_on_pdf_core, List.mem_map] at hres
  obtain ⟨p, hp, rfl⟩ := hres
  have hsnd : p.2 ∈ (pipelineFinalFused schema graw praw rraw nraw oracle).map Prod.snd :=
    List.mem_map_of_mem Prod.snd hp
  have hP : p.2.status = none ∨ p.2.status = some "Not Reported" := by
    revert hsnd
    unfold pipelineFinalFused
    by_cases hm : (pipelineMissing schema graw praw rraw nraw).isEmpty
    · rw [if_pos hm]
      intro hsnd
      exact snd_pipelineDetFused_pred schema graw praw rraw nraw
        (fun x => x.status = none ∨ x.status = some "Not Reported")
        (Or.inr rfl) (fun e src he => Or.inl he) _ hsnd
    · rw [if_neg hm]
      intro hsnd
      refine snd_applyBackfill_pred
        (fun x => x.status = none ∨ x.status = some "Not Reported")
        _ _ _ ?_ ?_ _ hsnd
      · exact snd_pipelineDetFused_pred schema graw praw rraw nraw
          (fun x => x.status = none ∨ x.status = some "Not Reported")
          (Or.inr rfl) (fun e src he => Or.inl he)
      · intro e he
        exact Or.inl (snd_pipelineLlmNorm_status schema graw praw rraw nraw oracle e he)
  rcases hP with h | h <;> simp [toKPIResult, h]

/-- Witness for `c10_status_always_not_reported`: a resolved KPI (value
123400 from regex) still gets status "Not Reported". -/
theorem c10_witness :
    (⟨"k", some 123400, some "tCO2e", 0.8, ["regex"], "Not Reported"⟩ : KPIResult).status
      = "Not Reported" :=
  c10_status_always_not_reported
    [("k", { units := ["tCO2e"], synonyms := [] })] [] []
    [("k", { raw_value := some "123,400", raw_unit := some "tCO2e",
             confidence := some 0.8 })] []
    (fun _ => .ok [])
    ⟨"k", some 123400, some "tCO2e", 0.8, ["regex"], "Not Reported"⟩
    (by decide)

/-- C2 counterexample: with a single regex candidate whose `raw_value`
"abc" fails numeric parsing, the fused output and the final result list carry
`value = null` together with the non-empty source list `["regex"]` — the
claimed "value non-null iff source non-empty" is violated. -/
theorem c2_counterexample :
    run_on_pdf_core [("k", { units := ["tCO2e"], synonyms := [] })] [] []
        [("k", { raw_value := some "abc", raw_unit := some "tCO2e",
                 confidence := some 0.8 })]
        [] (fun _ => .ok [])
      = [⟨"k", none, some "tCO2e", 0.8, ["regex"], "Not Reported"⟩] ∧
    (["regex"] : List String) ≠ [] :=
  ⟨by decide, by decide⟩

/-- C2 amended: one direction of the claimed invariant holds — every emitted
`KPIResult` with a non-null value has a non-empty source list (the converse
fails: a KPI whose winning candidate's raw value did not parse is emitted
with value=null and a non-empty source list). -/
theorem c2_amended (schema : Schema) (graw praw rraw nraw : RawResults)
    (oracle : Schema → Except PyErr RawResults) :
    ∀ res ∈ run_on_pdf_core schema graw praw rraw nraw oracle,
      res.value ≠ none → res.source ≠ [] := by
  intro res hres hval
  simp only [run_on_pdf_core, List.mem_map] at hres
  obtain ⟨p, hp, rfl⟩ := hres
  have hsnd : p.2 ∈ (pipelineFinalFused schema graw praw rraw nraw oracle).map Prod.snd :=
    List.mem_map_of_mem Prod.snd hp
  have hP : p.2.value.isSome → p.2.source ≠ [] := by
    revert hsnd
    unfold pipelineFinalFused
    by_cases hm : (pipelineMissing schema graw praw rraw nraw).isEmpty
    · rw [if_pos hm]
      intro hsnd
      exact snd_pipelineDetFused_pred schema graw praw rraw nraw
        (fun x => x.value.isSome → x.source ≠ [])
        (fun h => absurd h (by simp [unresolvedFused]))
        (fun e src he => fun _ => by simp [spreadNorm]) _ hsnd
    · rw [if_neg hm]
      intro hsnd
      refine snd_applyBackfill_pred (fun x => x.value.isSome → x.source ≠ [])
        _ _ _ ?_ ?_ _ hsnd
      · exact snd_pipelineDetFused_pred schema graw praw rraw nraw
          (fun x => x.value.isSome → x.source ≠ [])
          (fun h => absurd h (by simp [unresolvedFused]))
          (fun e src he => fun _ => by simp [spreadNorm])
      · intro e he
        exact fun _ => by simp [spreadNorm]
  have hv : p.2.value.isSome := by
    rw [Option.isSome_iff_ne_none]
    exact hval
  exact hP hv

/-- Witness for `c2_amended`: a resolved KPI with value 123400 has the
non-empty source `["regex"]`. -/
theorem c2_amended_witness :
    (⟨"k", some 123400, some "tCO2e", 0.8, ["regex"], "Not Reported"⟩ : KPIResult).source
      ≠ [] :=
  c2_amended [("k", { units := ["tCO2e"], synonyms := [] })] [] []
    [("k", { raw_value := some "123,400", raw_unit := some "tCO2e",
             confidence := some 0.8 })] []
    (fun _ => .ok [])
    ⟨"k", some 123400, some "tCO2e", 0.8, ["regex"], "Not Reported"⟩
    (by decide) (by decide)

/-- C3 counterexample: a deterministic (regex) candidate exists for "k", yet
"k" is in the backfill invocation set (`missing_codes`) because its raw value
"abc" failed to parse and the fused value is null — so backfill is invoked
for a KPI that had a deterministic candidate, contradicting the "zero
deterministic Candidates" condition. -/
theorem c3_counterexample :
    pipelineMissing [("k", { units := ["tCO2e"], synonyms := [] })] [] []
        [("k", { raw_value := some "abc", raw_unit := some "tCO2e",
                 confidence := some 0.8 })] []
      = ["k"] ∧
    dget "k" (normalize_regex_result
        [("k", { raw_value := some "abc", raw_unit := some "tCO2e",
                 confidence := some 0.8 })]
        [("k", { units := ["tCO2e"], synonyms := [] })]) ≠ none :=
  ⟨by decide, by decide⟩

/-- C3 amended: the LLM backfill is invoked exactly for the schema KPIs whose
fused value is still null after deterministic fusion (which includes KPIs
that had deterministic candidates whose values failed to parse), and a KPI
whose deterministic fused value is non-null is never replaced by a backfill
result. -/
theorem c3_amended :
    (∀ (schema : Schema) (graw praw rraw nraw : RawResults) (code : String),
        code ∈ pipelineMissing schema graw praw rraw nraw ↔
          code ∈ schema.map Prod.fst ∧
            ((dget code (pipelineDetFused schema graw praw rraw nraw)).bind
              (fun e => e.value)) = none) ∧
    (∀ (schema : Schema) (graw praw rraw nraw : RawResults)
        (oracle : Schema → Except PyErr RawResults) (code : String) (e : FusedEntry),
        dget code (pipelineDetFused schema graw praw rraw nraw) = some e →
        e.value.isSome →
        dget code (pipelineFinalFused schema graw praw rraw nraw oracle) = some e) := by
  constructor
  · intro schema graw praw rraw nraw code
    simp [pipelineMissing, missingCodes, List.mem_filter]
  · intro schema graw praw rraw nraw oracle code e hd hv
    unfold pipelineFinalFused
    by_cases hm : (pipelineMissing schema graw praw rraw nraw).isEmpty
    · rw [if_pos hm]
      exact hd
    · rw [if_neg hm]
      exact applyBackfill_dget_keep _ _ _ _ _ hd hv

/-- Witness for `c3_amended`: on the counterexample inputs "k" is in the
invocation set, and on a resolving run the deterministic entry survives
backfill unchanged. -/
theorem c3_amended_witness :
    ("k" ∈ pipelineMissing [("k", { units := ["tCO2e"], synonyms := [] })] [] []
        [("k", { raw_value := some "abc", raw_unit := some "tCO2e",
                 confidence := some 0.8 })] []) ∧
    dget "k" (pipelineFinalFused [("k", { units := ["tCO2e"], synonyms := [] })] [] []
        [("k", { raw_value := some "123,400", raw_unit := some "tCO2e",
                 confidence := some 0.8 })] []
        (fun _ => .ok []))
      = some { raw_value := some "123,400", raw_unit := some "tCO2e",
               value := some 123400, unit := some "tCO2e",
               confidence := some 0.8, source := ["regex"] } :=
  ⟨((c3_amended.1 [("k", { units := ["tCO2e"], synonyms := [] })] [] []
      [("k", { raw_value := some "abc", raw_unit := some "tCO2e",
               confidence := some 0.8 })] [] "k").mpr (by decide)),
   (c3_amended.2 [("k", { units := ["tCO2e"], synonyms := [] })] [] []
      [("k", { raw_value := some "123,400", raw_unit := some "tCO2e",
               confidence := some 0.8 })] []
      (fun _ => .ok []) "k"
      { raw_value := some "123,400", raw_unit := some "tCO2e",
        value := some 123400, unit := some "tCO2e",
        confidence := some 0.8, source := ["regex"] }
      (by decide) (by decide))⟩

theorem nodup_applyBackfill (llm : NormResults) (missing : List String)
    (fused : FusedMap) (h : (fused.map Prod.fst).Nodup) :
    ((applyBackfill llm missing fused).map Prod.fst).Nodup := by
  induction missing generalizing fused with
  | nil => exact h
  | cons c rest ih =>
      simp only [applyBackfill, List.foldl_cons] at ih ⊢
      rcases hc : dget c llm with _ | entry
      · simp only [hc]
        exact ih fused h
      · simp only [hc]
        by_cases hguard : ((dget c fused).bind (fun e => e.value)).isSome = true
        · rw [if_pos hguard]
          exact ih fused h
        · rw [if_neg hguard]
          exact ih _ (nodup_dinsert _ h)

/-- C4 counterexample: for a schema KPI with no candidate from any source,
the pipeline emits value=null, confidence=0, source=[] as claimed — but with
status "Not Reported", not the claimed "not reported". -/
theorem c4_counterexample :
    run_on_pdf_core [("k", { units := ["tCO2e"], synonyms := [] })] [] [] [] []
        (fun _ => .ok [])
      = [⟨"k", none, none, 0, [], "Not Reported"⟩] ∧
    "Not Reported" ≠ "not reported" :=
  ⟨by decide, by decide⟩

/-- C4 amended: for every schema with distinct KPI codes and every input,
each schema code appears exactly once (in order) in the final `KPIResult`
list; and a KPI for which no source produced a candidate appears with
value=null, confidence=0.0, empty source list and status "Not Reported"
(capitalized, unlike the claimed "not reported"). -/
theorem c4_amended :
    (∀ (schema : Schema) (graw praw rraw nraw : RawResults)
        (oracle : Schema → Except PyErr RawResults),
        (schema.map Prod.fst).Nodup →
        (run_on_pdf_core schema graw praw rraw nraw oracle).map (fun r => r.code)
          = schema.map Prod.fst) ∧
    (∀ (schema : Schema) (graw praw rraw nraw : RawResults)
        (oracle : Schema → Except PyErr RawResults) (code : String),
        code ∈ schema.map Prod.fst →
        dget code graw = none → dget code praw = none →
        dget code rraw = none → dget code nraw = none →
        (∀ s raws, oracle s = Except.ok raws → dget code raws = none) →
        ∀ res ∈ run_on_pdf_core schema graw praw rraw nraw oracle,
          res.code = code →
          res = ⟨code, none, none, 0, [], "Not Reported"⟩) := by
  constructor
  · intro schema graw praw rraw nraw oracle hnodup
    have hdetkeys : (pipelineDetFused schema graw praw rraw nraw).map Prod.fst
        = schema.map Prod.fst := fuse_fst _ _ _ _ _ _ hnodup
    have hfinalkeys : (pipelineFinalFused schema graw praw rraw nraw oracle).map Prod.fst
        = schema.map Prod.fst := by
      unfold pipelineFinalFused
      by_cases hm : (pipelineMissing schema graw praw rraw nraw).isEmpty
      · rw [if_pos hm]
        exact hdetkeys
      · rw [if_neg hm]
        rw [fst_applyBackfill _ _ _ ?_, hdetkeys]
        intro c hc
        rw [hdetkeys]
        simp only [pipelineMissing, missingCodes] at hc
        exact (List.mem_filter.mp hc).1
    simp only [run_on_pdf_core, List.map_map]
    have hcomp : ((fun r => KPIResult.code r) ∘ toKPIResult) = Prod.fst :=
      funext (fun p => rfl)
    rw [hcomp, hfinalkeys]
  · intro schema graw praw rraw nraw oracle code hmem hg hp hr hn horacle res hres hcode
    have h1 : dget code (normalize_table_grid_result graw schema) = none := by
      rw [normalize_table_grid_dget, hg]
      rfl
    have h2 : dget code (normalize_table_plain_result praw schema) = none := by
      rw [normalize_table_plain_dget, hp]
      rfl
    have h3 : dget code (normalize_regex_result rraw schema) = none := by
      rw [normalize_regex_dget, hr]
      rfl
    have h4 : dget code (normalize_nlp_result nraw schema) = none := by
      rw [normalize_nlp_dget, hn]
      rfl
    have hfo : fuseOne (normalize_regex_result rraw schema)
        (normalize_table_grid_result graw schema)
        (normalize_table_plain_result praw schema)
        (normalize_nlp_result nraw schema) code = unresolvedFused := by
      unfold fuseOne
      rw [show collectCands (normalize_regex_result rraw schema)
          (normalize_table_grid_result graw schema)
          (normalize_table_plain_result praw schema)
          (normalize_nlp_result nraw schema) code = [] from by
        simp [collectCands, h1, h2, h3, h4]]
      rfl
    have hdet : dget code (pipelineDetFused schema graw praw rraw nraw)
        = some unresolvedFused := by
      unfold pipelineDetFused
      rw [fuse_dget, if_pos hmem, hfo]
    have hllm : dget code (pipelineLlmNorm schema graw praw rraw nraw oracle) = none := by
      rcases hcall : oracle (subsetSchema schema
          (pipelineMissing schema graw praw rraw nraw)) with errv | raws
      · simp only [pipelineLlmNorm, hcall]
        rfl
      · simp only [pipelineLlmNorm, hcall]
        rw [normalize_llm_dget, horacle _ _ hcall]
        rfl
    have hfinal : dget code (pipelineFinalFused schema graw praw rraw nraw oracle)
        = some unresolvedFused := by
      unfold pipelineFinalFused
      by_cases hm : (pipelineMissing schema graw praw rraw nraw).isEmpty
      · rw [if_pos hm]
        exact hdet
      · rw [if_neg hm]
        rw [applyBackfill_dget_of_llm_none _ _ _ _ hllm]
        exact hdet
    have hnodup : ((pipelineFinalFused schema graw praw rraw nraw oracle).map
        Prod.fst).Nodup := by
      unfold pipelineFinalFused
      by_cases hm : (pipelineMissing schema graw praw rraw nraw).isEmpty
      · rw [if_pos hm]
        unfold pipelineDetFused
        exact fuse_nodup _ _ _ _ _ _
      · rw [if_neg hm]
        refine nodup_applyBackfill _ _ _ ?_
        unfold pipelineDetFused
        exact fuse_nodup _ _ _ _ _ _
    simp only [run_on_pdf_core, List.mem_map] at hres
    obtain ⟨q, hq, rfl⟩ := hres
    have hqcode : q.1 = code := hcode
    have hdq : dget code (pipelineFinalFused schema graw praw rraw nraw oracle)
        = some q.2 := by
      rw [← hqcode]
      exact dget_of_mem_nodup (Prod.mk.eta ▸ hq) hnodup
    have hq2 : q.2 = unresolvedFused := by
      have := hdq.symm.trans hfinal
      exact Option.some.inj this
    have hqeq : q = (code, unresolvedFused) := Prod.ext hqcode hq2
    rw [hqeq]
    rfl

/-- Witness for `c4_amended` on a one-KPI schema with empty extractor
outputs: the result list is exactly the unresolved record. -/
theorem c4_amended_witness :
    (run_on_pdf_core [("k", { units := ["tCO2e"], synonyms := [] })] [] [] [] []
        (fun _ => .ok [])).map (fun r => r.code)
      = ["k"] ∧
    (⟨"k", none, none, 0, [], "Not Reported"⟩ : KPIResult)
      = ⟨"k", none, none, 0, [], "Not Reported"⟩ :=
  ⟨c4_amended.1 [("k", { units := ["tCO2e"], synonyms := [] })] [] [] [] []
      (fun _ => .ok []) (by decide),
   c4_amended.2 [("k", { units := ["tCO2e"], synonyms := [] })] [] [] [] []
      (fun _ => .ok []) "k" (by decide) rfl rfl rfl rfl
      (fun s raws h => by cases h; rfl)
      ⟨"k", none, none, 0, [], "Not Reported"⟩ (by decide) rfl⟩

/-! ## Table-grid extractor lemmas (C7) -/

theorem tg_inner_dget (code : String) (hits : RawResults) :
    ∀ agg : RawResults,
      dget code (hits.foldl (fun agg hit =>
        if (dget hit.1 agg).isSome then agg else dinsert hit.1 hit.2 agg) agg)
      = if (dget code agg).isSome then dget code agg else dget code hits := by
  induction hits with
  | nil =>
      intro agg
      by_cases h : (dget code agg).isSome = true
      · simp [dget, h]
      · simp [dget, h, Option.not_isSome_iff_eq_none.mp h]
  | cons hit rest ih =>
      intro agg
      rw [List.foldl_cons, ih]
      by_cases hk : hit.1 = code
      · subst hk
        by_cases hs : (dget hit.1 agg).isSome = true
        · obtain ⟨w, hw⟩ := Option.isSome_iff_exists.mp hs
          simp [hs, hw, dget]
        · have hins := dget_dinsert_self hit.1 hit.2 agg
          simp [hs, hins, dget]
      · by_cases hs : (dget hit.1 agg).isSome = true
        · simp [hs, dget, hk]
        · have hins := dget_dinsert_ne hit.2 agg hk
          simp [hs, hins, dget, hk]

theorem tg_outer_keep (code : String) (e : RawEntry)
    (syns : List (String × List Chars)) (units : List (String × List String))
    (tables : List TableGrid.Table) :
    ∀ agg : RawResults, dget code agg = some e →
      dget code (tables.foldl (fun aggregated table =>
        (TableGrid.extract_table_grid table syns units).foldl (fun agg hit =>
          if (dget hit.1 agg).isSome then agg else dinsert hit.1 hit.2 agg) aggregated) agg)
      = some e := by
  induction tables with
  | nil => intro agg h; exact h
  | cons t rest ih =>
      intro agg h
      rw [List.foldl_cons]
      refine ih _ ?_
      rw [tg_inner_dget, h]
      simp

theorem tg_fold_nodup (syns : List (String × List Chars))
    (units : List (String × List String)) (tables : List TableGrid.Table) :
    ∀ agg : RawResults, ((agg.map Prod.fst).Nodup) →
      (((tables.foldl (fun aggregated table =>
        (TableGrid.extract_table_grid table syns units).foldl (fun agg hit =>
          if (dget hit.1 agg).isSome then agg else dinsert hit.1 hit.2 agg) aggregated)
        agg)).map Prod.fst).Nodup := by
  induction tables with
  | nil => intro agg h; exact h
  | cons t rest ih =>
      intro agg h
      rw [List.foldl_cons]
      refine ih _ ?_
      generalize TableGrid.extract_table_grid t syns units = hits
      clear ih
      induction hits generalizing agg with
      | nil => exact h
      | cons hit hrest ihh =>
          rw [List.foldl_cons]
          by_cases hs : (dget hit.1 agg).isSome = true
          · rw [if_pos hs]
            exact ihh _ h
          · rw [if_neg hs]
            exact ihh _ (nodup_dinsert _ h)

/-- C7 counterexample: in a single table whose two data rows both match
`total_ghg_emissions`, the extractor keeps the SECOND row's value "222" —
the claimed "first matching data row per KPI per table" predicts "111". -/
theorem c7_counterexample :
    TableGrid.extract_kpis_tables_grid
        [[[some "KPI", some "Unit", some "Value"],
          [some "Total GHG emissions", some "tCO2e", some "111"],
          [some "Total GHG emissions", some "tCO2e", some "222"]]]
        [("total_ghg_emissions",
          { units := ["tCO2e"], synonyms := ["total ghg emissions"] })]
      = [("total_ghg_emissions",
          { raw_value := some "222", raw_unit := some "tCO2e",
            value := some (.str "222"), unit := some "tCO2e",
            confidence := some 0.9 })] ∧
    (some "222" : Option String) ≠ some "111" :=
  ⟨by decide, by decide⟩

/-- C7 amended: within a single table, the LAST matching data row per KPI
determines the entry (every matching row overwrites the previous one);
across the tables of a document the first table-level hit per KPI is kept;
and each KPI yields at most one candidate (the aggregated keys are
duplicate-free). -/
theorem c7_amended :
    (∀ (syns : List (String × List Chars)) (units : List (String × List String))
        (header : TableGrid.Row) (rows : List TableGrid.Row) (row : TableGrid.Row)
        (code : String) (e : RawEntry),
        TableGrid.processRow (TableGrid.detect_cols header) syns units row
          = some (code, e) →
        dget code (TableGrid.extract_table_grid (header :: (rows ++ [row])) syns units)
          = some e) ∧
    (∀ (schema : Schema) (t : TableGrid.Table) (ts : List TableGrid.Table)
        (code : String) (e : RawEntry),
        dget code (TableGrid.extract_table_grid t
            (TableGrid.build_synonyms schema) (TableGrid.build_units schema)) = some e →
        dget code (TableGrid.extract_kpis_tables_grid (t :: ts) schema) = some e) ∧
    (∀ (tables : List TableGrid.Table) (schema : Schema),
        ((TableGrid.extract_kpis_tables_grid tables schema).map Prod.fst).Nodup) := by
  refine ⟨?_, ?_, ?_⟩
  · intro syns units header rows row code e hrow
    unfold TableGrid.extract_table_grid
    rw [if_neg (by simp)]
    dsimp only
    rw [List.foldl_append, List.foldl_cons, List.foldl_nil, hrow]
    exact dget_dinsert_self code e _
  · intro schema t ts code e h
    unfold TableGrid.extract_kpis_tables_grid
    rw [List.foldl_cons]
    refine tg_outer_keep code e _ _ ts _ ?_
    rw [tg_inner_dget, h]
    simp [dget]
  · intro tables schema
    unfold TableGrid.extract_kpis_tables_grid
    exact tg_fold_nodup _ _ tables [] (by simp)

/-- Witness for `c7_amended`: the last matching row "222" wins inside one
table, and the first table's hit "333" survives a later table. -/
theorem c7_amended_witness :
    dget "total_ghg_emissions" (TableGrid.extract_table_grid
        [[some "KPI", some "Unit", some "Value"],
         [some "Total GHG emissions", some "tCO2e", some "111"],
         [some "Total GHG emissions", some "tCO2e", some "222"]]
        (TableGrid.build_synonyms
          [("total_ghg_emissions",
            { units := ["tCO2e"], synonyms := ["total ghg emissions"] })])
        (TableGrid.build_units
          [("total_ghg_emissions",
            { units := ["tCO2e"], synonyms := ["total ghg emissions"] })]))
      = some { raw_value := some "222", raw_unit := some "tCO2e",
               value := some (.str "222"), unit := some "tCO2e",
               confidence := some 0.9 } ∧
    dget "total_ghg_emissions" (TableGrid.extract_kpis_tables_grid
        [[[some "KPI", some "Unit", some "Value"],
          [some "Total GHG emissions", some "tCO2e", some "333"]],
         [[some "KPI", some "Unit", some "Value"],
          [some "Total GHG emissions", some "tCO2e", some "111"],
          [some "Total GHG emissions", some "tCO2e", some "222"]]]
        [("total_ghg_emissions",
          { units := ["tCO2e"], synonyms := ["total ghg emissions"] })])
      = some { raw_value := some "333", raw_unit := some "tCO2e",
               value := some (.str "333"), unit := some "tCO2e",
               confidence := some 0.9 } :=
  ⟨c7_amended.1
      (TableGrid.build_synonyms
        [("total_ghg_emissions",
          { units := ["tCO2e"], synonyms := ["total ghg emissions"] })])
      (TableGrid.build_units
        [("total_ghg_emissions",
          { units := ["tCO2e"], synonyms := ["total ghg emissions"] })])
      [some "KPI", some "Unit", some "Value"]
      [[some "Total GHG emissions", some "tCO2e", some "111"]]
      [some "Total GHG emissions", some "tCO2e", some "222"]
      "total_ghg_emissions"
      { raw_value := some "222", raw_unit := some "tCO2e",
        value := some (.str "222"), unit := some "tCO2e",
        confidence := some 0.9 }
      (by decide),
   c7_amended.2.1
      [("total_ghg_emissions",
        { units := ["tCO2e"], synonyms := ["total ghg emissions"] })]
      [[some "KPI", some "Unit", some "Value"],
       [some "Total GHG emissions", some "tCO2e", some "333"]]
      [[[some "KPI", some "Unit", some "Value"],
        [some "Total GHG emissions", some "tCO2e", some "111"],
        [some "Total GHG emissions", some "tCO2e", some "222"]]]
      "total_ghg_emissions"
      { raw_value := some "333", raw_unit := some "tCO2e",
        value := some (.str "333"), unit := some "tCO2e",
        confidence := some 0.9 }
      (by decide)⟩

/-! ## LLM extractor lemmas (C8) -/

theorem mem_dinsert {α : Type} {k : String} {v : α} {m : List (String × α)}
    {q : String × α} (h : q ∈ dinsert k v m) : q = (k, v) ∨ q ∈ m := by
  induction m with
  | nil => simpa [dinsert] using h
  | cons p rest ih =>
      by_cases hp : p.1 = k
      · rw [dinsert] at h
        rw [if_pos hp] at h
        rcases List.mem_cons.mp h with h | h
        · exact .inl h
        · exact .inr (by simp [h])
      · rw [dinsert] at h
        rw [if_neg hp] at h
        rcases List.mem_cons.mp h with h | h
        · exact .inr (by simp [h])
        · rcases ih h with h' | h'
          · exact .inl h'
          · exact .inr (by simp [h'])

theorem buildOutStep_ok {data : Llm.Json} {conf : Q}
    {out out' : List (String × Llm.LlmOut)} {code : String}
    (h : Llm.buildOutStep data conf out code = Except.ok out') :
    out' = out ∨
      ∃ (c : String) (entry : Llm.LlmOut),
        entry.raw_value ≠ Llm.Json.null ∧ out' = dinsert c entry out := by
  unfold Llm.buildOutStep at h
  rcases data with _ | _ | _ | _ | _ | fields
  iterate 5 exact absurd h (by simp)
  dsimp only at h
  rcases hget : (dget code fields).getD (.obj []) with _ | _ | _ | _ | _ | efields <;>
    rw [hget] at h
  iterate 5 exact absurd h (by simp)
  dsimp only at h
  rcases hrv : dget "raw_value" efields with _ | j <;> rw [hrv] at h
  · exact .inl (Except.ok.inj h).symm
  · rcases j with _ | b | q | s | xs | fs
    · exact .inl (Except.ok.inj h).symm
    all_goals
      exact .inr ⟨code, _, by simp, (Except.ok.inj h).symm⟩

theorem buildOut_fold_pred (data : Llm.Json) (conf : Q) (codes : List String) :
    ∀ init out : List (String × Llm.LlmOut),
      (∀ pr ∈ init, pr.2.raw_value ≠ Llm.Json.null) →
      List.foldlM (Llm.buildOutStep data conf) init codes = Except.ok out →
      ∀ pr ∈ out, pr.2.raw_value ≠ Llm.Json.null := by
  induction codes with
  | nil =>
      intro init out h0 hfold
      simp only [List.foldlM_nil] at hfold
      cases hfold
      exact h0
  | cons c rest ih =>
      intro init out h0 hfold
      rw [List.foldlM_cons] at hfold
      rcases hstep : Llm.buildOutStep data conf init c with errv | mid <;>
        rw [hstep] at hfold
      · exact absurd hfold (by simp [Bind.bind, Except.bind])
      · simp only [Bind.bind, Except.bind] at hfold
        refine ih mid out ?_ hfold
        rcases buildOutStep_ok hstep with rfl | ⟨c', entry, hne, rfl⟩
        · exact h0
        · intro pr hpr
          rcases mem_dinsert hpr with rfl | h
          · exact hne
          · exact h0 pr h

/-- C8 counterexample: a syntactically valid JSON response whose per-KPI
value is `null` — `json.loads('{"total_ghg_emissions": null}')` yields a
dict with a `None` entry; the claim requires the extractor to return an
empty candidate set for every bad response, but `entry.get("raw_value")`
raises `AttributeError` instead (no `or {}` guard). -/
theorem c8_counterexample :
    Llm.extract_kpis_llm
        (fun _ => some (.obj [("total_ghg_emissions", .null)])) true
        (.content (some "\x7b\"total_ghg_emissions\": null\x7d"))
        [("total_ghg_emissions", { units := ["tCO2e"], synonyms := [] })] 0.75
      = Except.error PyErr.attributeError := by
  rfl

/-- C8 amended: `extract_kpis_llm` makes a single oracle attempt (no
retries); it returns an empty candidate set on a missing API key, transport
failure, missing response structure, empty content, or content that does not
parse as JSON; it never emits a candidate whose raw_value is absent (JSON
null or missing key); but a response that parses to JSON of unexpected shape
(a non-object, or an object with a null/non-object per-KPI entry) raises an
`AttributeError` instead of returning no candidates — the exception is
caught by the pipeline's surrounding try, which then treats the backfill as
yielding nothing. -/
theorem c8_amended :
    (∀ (loads : String → Option Llm.Json) (resp : Llm.OracleStep)
        (schema : Schema) (conf : Q),
        Llm.extract_kpis_llm loads false resp schema conf = Except.ok []) ∧
    (∀ loads (schema : Schema) (conf : Q),
        Llm.extract_kpis_llm loads true .transportError schema conf = Except.ok []) ∧
    (∀ loads (schema : Schema) (conf : Q),
        Llm.extract_kpis_llm loads true .badStructure schema conf = Except.ok []) ∧
    (∀ loads (schema : Schema) (conf : Q),
        Llm.extract_kpis_llm loads true (.content none) schema conf = Except.ok []) ∧
    (∀ (loads : String → Option Llm.Json) (schema : Schema) (conf : Q) (s : String),
        loads (String.mk (Llm.cleanContent s.toList)) = none →
        Llm.extract_kpis_llm loads true (.content (some s)) schema conf = Except.ok []) ∧
    (∀ loads (hasKey : Bool) (resp : Llm.OracleStep) (schema : Schema) (conf : Q)
        (out : List (String × Llm.LlmOut)),
        Llm.extract_kpis_llm loads hasKey resp schema conf = Except.ok out →
        ∀ pr ∈ out, pr.2.raw_value ≠ Llm.Json.null) := by
  refine ⟨?_, ?_, ?_, ?_, ?_, ?_⟩
  · intro loads resp schema conf
    rfl
  · intro loads schema conf
    rfl
  · intro loads schema conf
    rfl
  · intro loads schema conf
    rfl
  · intro loads schema conf s hloads
    have hloads' : loads { data := Llm.cleanContent s.data } = none := hloads
    by_cases hs : s = ""
    · simp [Llm.extract_kpis_llm, hs]
    · simp [Llm.extract_kpis_llm, hs, hloads']
  · intro loads hasKey resp schema conf out hout
    unfold Llm.extract_kpis_llm at hout
    rcases hasKey with _ | _
    · cases hout
      simp
    · rcases resp with _ | _ | c
      · cases hout
        simp
      · cases hout
        simp
      · rcases c with _ | s
        · cases hout
          simp
        · simp only at hout
          by_cases hs : s = ""
          · rw [if_pos hs] at hout
            cases hout
            simp
          · rw [if_neg hs] at hout
            rcases hloads : loads (String.mk (Llm.cleanContent s.toList)) with _ | data <;>
              rw [hloads] at hout
            · cases hout
              simp
            · unfold Llm.buildOut at hout
              exact buildOut_fold_pred data conf (schema.map Prod.fst) [] out
                (by simp) hout

/-- Witness for `c8_amended`: a non-JSON response yields no candidates, and
an ok result with one well-formed candidate contains no null raw_value. -/
theorem c8_amended_witness :
    Llm.extract_kpis_llm (fun _ => none) true (.content (some "garbage"))
        [("total_ghg_emissions", { units := ["tCO2e"], synonyms := [] })] 0.75
      = Except.ok [] ∧
    (("total_ghg_emissions",
        ({ raw_value := Llm.Json.str "123,400", raw_unit := some (Llm.Json.str "tCO2e"),
           confidence := 0.75 } : Llm.LlmOut)) :
      String × Llm.LlmOut).2.raw_value ≠ Llm.Json.null :=
  ⟨c8_amended.2.2.2.2.1 (fun _ => none)
      [("total_ghg_emissions", { units := ["tCO2e"], synonyms := [] })] 0.75 "garbage" rfl,
   c8_amended.2.2.2.2.2
      (fun _ => some (.obj [("total_ghg_emissions",
        .obj [("raw_value", .str "123,400"), ("raw_unit", .str "tCO2e")])]))
      true
      (.content (some "\x7b\"total_ghg_emissions\": \x7b\"raw_value\": \"123,400\", \"raw_unit\": \"tCO2e\"\x7d\x7d"))
      [("total_ghg_emissions", { units := ["tCO2e"], synonyms := [] })] 0.75
      [("total_ghg_emissions",
        { raw_value := Llm.Json.str "123,400", raw_unit := some (Llm.Json.str "tCO2e"),
          confidence := 0.75 })]
      rfl
      ("total_ghg_emissions",
        { raw_value := Llm.Json.str "123,400", raw_unit := some (Llm.Json.str "tCO2e"),
          confidence := 0.75 })
      (by simp)⟩

end ESG
